import Mathlib

/-!
# Verification of the manifest backend core

A shallow embedding, in Lean 4, of the algorithmic core of the `manifest`
image-dataset backend:

* the sampling engine (`app/services/sampling_service.py`),
* the DNF tag-filter query construction (`app/api/routes/samples.py`),
* the VOC-XML annotation parser (`app/services/annotation_service.py`),
* the webhook-driven annotation reconciliation state machine
  (`app/api/routes/webhooks.py`), and
* the auto-tagging rule engine (`app/services/auto_tagging_service.py`).

Python dicts are embedded as association lists in insertion order (lookup
returns the first binding), Python `int` as `Int` (or `Nat` where the value
is a tally by construction), Python `float` scores as `Rat`, raising code as
`Except`, and the database session as an explicit record of table contents
threaded through each handler.  Collaborators outside the repository (the
MinIO client, the `re` module, `uuid.UUID`, the random number generator's
internal generator) enter as explicit parameters or small deterministic
models.
-/

namespace Manifest

/-! ## Sampling service (`app/services/sampling_service.py`)

`class_counts` dict values are object tallies, embedded as `Nat`; targets
come from API input and are embedded as `Int`. -/

/-- Model of `dict.get(cls, 0)` on a class-count dict. -/
def lookupD (m : List (String × Nat)) (k : String) : Nat :=
  (m.lookup k).getD 0

/-- A sampling candidate: a sample together with the class-count map that
`get_class_counts` would return for it (empty when the sample has no
annotation, matching the `return {}` fallback). -/
structure Cand where
  id : Nat
  class_counts : List (String × Nat)
deriving Repr, DecidableEq

/-- Model of `ClassAchievement` dataclass. -/
structure ClassAchievement where
  target : Int
  actual : Nat
  status : String
deriving Repr, DecidableEq

/-- Model of `SamplingResult` dataclass. -/
structure SamplingResult where
  selected_samples : List Cand
  target_achievement : List (String × ClassAchievement)
  total_selected : Nat
deriving Repr, DecidableEq

/-- Model of `calculate_score` closure in `sample_by_class_targets`: iterates the
current `remaining` dict and, for each class with remaining target `> 0`,
adds `min(class_counts.get(cls, 0), target) / target` where `target` is the
value stored in `remaining`. -/
def calculateScore (classCounts : List (String × Nat)) (remaining : List (String × Int)) : Rat :=
  if classCounts.isEmpty then 0
  else
    remaining.foldl
      (fun score ct =>
        if ct.2 > 0 then
          score + (min (lookupD classCounts ct.1 : Int) ct.2 : Int) / (ct.2 : Rat)
        else score)
      0

/-- The `remaining` update after picking `best`: for each class of the pick's
class counts that is a key of `remaining`, clamp `remaining[cls] - count`
at `0`. -/
def updateRemaining (remaining : List (String × Int)) (counts : List (String × Nat)) :
    List (String × Int) :=
  counts.foldl
    (fun rem cn =>
      if (rem.lookup cn.1).isSome then
        rem.map (fun kv => if kv.1 = cn.1 then (kv.1, max 0 (kv.2 - (cn.2 : Int))) else kv)
      else rem)
    remaining

/-- Stable insertion of `x` (an element earlier in the original order) into
an already sorted list: `x` goes before the first element it compares
no-worse than, so elements with equal keys keep their original order. -/
def insertBy {α : Type} (le : α → α → Bool) (x : α) : List α → List α
  | [] => [x]
  | y :: ys => if le x y then x :: y :: ys else y :: insertBy le x ys

/-- Stable sort modelling CPython's `list.sort`: a stable sort is
extensionally determined by the (total, transitive) comparison, so
insertion sort reproduces `list.sort(key=..., reverse=True)` when `le` is
the "key not smaller" relation. -/
def sortBy {α : Type} (le : α → α → Bool) : List α → List α
  | [] => []
  | x :: xs => insertBy le x (sortBy le xs)

/-- The `while` loop of `sample_by_class_targets`, with the number of
iterations bounded structurally by a fuel argument (each iteration pops one
candidate, so `candidateList.length` fuel is always enough; see
`greedyLoop`).  Returns the selection, the final `remaining` dict, and a
trace recording, for each iteration that entered the loop body, the
`remaining` dict and the unselected candidate list at that point. -/
def greedyLoopF (fuel : Nat) (remaining : List (String × Int)) (candidateList selected : List Cand)
    (trace : List (List (String × Int) × List Cand)) :
    List Cand × List (String × Int) × List (List (String × Int) × List Cand) :=
  match fuel with
  | 0 => (selected, remaining, trace)
  | fuel + 1 =>
    if remaining.any (fun p => p.2 > 0) ∧ candidateList ≠ [] then
      match sortBy
        (fun a b => calculateScore b.class_counts remaining ≤ calculateScore a.class_counts remaining)
        candidateList with
      | [] => (selected, remaining, trace ++ [(remaining, candidateList)])
      | best :: rest =>
        if calculateScore best.class_counts remaining = 0 then
          (selected, remaining, trace ++ [(remaining, candidateList)])
        else
          greedyLoopF fuel (updateRemaining remaining best.class_counts) rest (selected ++ [best])
            (trace ++ [(remaining, candidateList)])
    else (selected, remaining, trace)

/-- The greedy loop run with enough fuel to exhaust the candidate list. -/
def greedyLoop (remaining : List (String × Int)) (candidateList : List Cand) :
    List Cand × List (String × Int) × List (List (String × Int) × List Cand) :=
  greedyLoopF candidateList.length remaining candidateList [] []

/-- Model of `sample_by_class_targets`. -/
def sampleByClassTargets (candidates : List Cand) (classTargets : List (String × Int)) :
    SamplingResult :=
  if candidates.isEmpty then
    { selected_samples := []
      target_achievement :=
        classTargets.map (fun ct => (ct.1, ⟨ct.2, 0, "partial"⟩))
      total_selected := 0 }
  else
    let res := greedyLoop classTargets candidates
    let selected := res.1
    let achievement := classTargets.map (fun ct =>
      let actual : Nat := (selected.map (fun s => lookupD s.class_counts ct.1)).sum
      (ct.1, ClassAchievement.mk ct.2 actual (if (actual : Int) ≥ ct.2 then "achieved" else "partial")))
    { selected_samples := selected
      target_achievement := achievement
      total_selected := selected.length }

/-- The trace of `(remaining, unselected candidates)` pairs seen at the top
of each executed greedy iteration of `sample_by_class_targets` (empty when
the candidate list is empty, since the loop is then never entered). -/
def greedyTrace (candidates : List Cand) (classTargets : List (String × Int)) :
    List (List (String × Int) × List Cand) :=
  if candidates.isEmpty then [] else (greedyLoop classTargets candidates).2.2

/-- The score formula as the claim states it: sum over classes with
remaining target `> 0` of `min(count, remaining)` divided by the class's
ORIGINAL `target_count`. -/
def claimScore (classTargets remaining : List (String × Int))
    (classCounts : List (String × Nat)) : Rat :=
  remaining.foldl
    (fun score ct =>
      if ct.2 > 0 then
        score + (min (lookupD classCounts ct.1 : Int) ct.2 : Int) /
          (((classTargets.lookup ct.1).getD 0 : Int) : Rat)
      else score)
    0

/-- The score formula the code actually implements, written from the
amended claim's words: sum over classes with remaining target `> 0` of
`min(count, remaining)` divided by the CURRENT remaining target. -/
def remainingScore (remaining : List (String × Int))
    (classCounts : List (String × Nat)) : Rat :=
  remaining.foldl
    (fun score ct =>
      if ct.2 > 0 then
        score + (min (lookupD classCounts ct.1 : Int) ct.2 : Int) / (ct.2 : Rat)
      else score)
    0

/-! ### `random_sample`

`random.sample` and `random.seed` are collaborators (Python's `random`
module).  They are modelled by an explicit generator state: `random.seed(S)`
deterministically resets the state from `S` alone, and `random.sample`
deterministically selects `k` distinct positions from its deterministic
state, raising `ValueError` iff `k` is negative or exceeds the population
size.  The concrete generator below is an LCG; the theorems use only that
it is a deterministic function of the state. -/

/-- One step of the modelled generator. -/
def lcgNext (st : Nat) : Nat :=
  (st * 6364136223846793005 + 1442695040888963407) % (2 ^ 64)

/-- Model of `random.seed(S)`: the generator state determined by the seed alone. -/
def seedState (s : Int) : Nat :=
  (s % (2 ^ 64)).toNat

/-- Selection without replacement of `k` elements, threading generator
state. -/
def sampleAux {α : Type} (st : Nat) (xs : List α) (k : Nat) : List α × Nat :=
  match k with
  | 0 => ([], st)
  | k + 1 =>
    if h : xs.length = 0 then ([], st)
    else
      let st' := lcgNext st
      let i := st' % xs.length
      let x := xs.get ⟨i, Nat.mod_lt _ (Nat.pos_of_ne_zero h)⟩
      let res := sampleAux st' (xs.eraseIdx i) k
      (x :: res.1, res.2)

/-- Model of `random.sample(xs, k)`: raises `ValueError` iff `k < 0` or
`k > len(xs)`. -/
def pySample {α : Type} (st : Nat) (xs : List α) (k : Int) :
    Except String (List α × Nat) :=
  if k < 0 ∨ k > (xs.length : Int) then
    .error "Sample larger than population or is negative"
  else .ok (sampleAux st xs k.toNat)

/-- Model of `random_sample(candidates, count, seed)`: seeds the generator when a
seed is supplied, then calls `random.sample` with `min(count,
len(candidates))`. -/
def randomSample {α : Type} (candidates : List α) (count : Int) (seed : Option Int)
    (st : Nat) : Except String (List α × Nat) :=
  let st1 := match seed with
    | some s => seedState s
    | none => st
  pySample st1 candidates (min count (candidates.length : Int))

/-! ## Common data-model enums (`app/models.py`) -/

/-- Model of `SampleStatus` enum. -/
inductive SampleStatus where
  | active
  | deleted
  | archived
deriving Repr, DecidableEq

/-- Model of `AnnotationStatus` enum. -/
inductive AnnotationStatus where
  | none
  | linked
  | conflict
  | error
deriving Repr, DecidableEq

/-! ## DNF tag filter in `read_samples` (`app/api/routes/samples.py`)

UUIDs are embedded as `Nat`; `uuid.UUID(t)` on a string is a collaborator,
embedded as an explicit parameter `uuidOf : String → Option Nat` (`none`
models the `ValueError` raise).  The `SampleTag` table is a `Finset` of
`(sample_id, tag_id)` pairs, reflecting its per-(sample, tag) uniqueness
constraint.  The raw `tag_filter` string is embedded as the outcome of
`json.loads` plus the shape check: `none` when the parameter is absent,
`some (.error ())` when `json.loads` raises `JSONDecodeError`, and
`some (.ok groups)` for a parsed list of string groups. -/

/-- The per-group subquery's membership test: the number of `SampleTag`
rows for this sample whose `tag_id` is in the group (`HAVING COUNT(tag_id)
= len(tag_uuids)` compares it to the group length). -/
def rowCount (assoc : Finset (Nat × Nat)) (sid : Nat) (g : List Nat) : Nat :=
  (assoc.filter (fun p => p.1 = sid ∧ p.2 ∈ g)).card

/-- Model of `[uuid.UUID(t) for t in tag_group]`: all-or-nothing parse of one
group. -/
def parseGroup (uuidOf : String → Option Nat) : List String → Option (List Nat)
  | [] => some []
  | t :: ts =>
    match uuidOf t with
    | Option.none => Option.none
    | some i => (parseGroup uuidOf ts).map (fun r => i :: r)

/-- The `for tag_group in tag_groups` loop: empty (falsy) groups are
skipped; the first invalid UUID string raises `ValueError`, discarding all
accumulated conditions. -/
def buildGroupConds (uuidOf : String → Option Nat) :
    List (List String) → Except Unit (List (List Nat))
  | [] => .ok []
  | g :: gs =>
    if g.isEmpty then buildGroupConds uuidOf gs
    else
      match parseGroup uuidOf g with
      | Option.none => .error ()
      | some tids =>
        match buildGroupConds uuidOf gs with
        | .error e => .error e
        | .ok rest => .ok (tids :: rest)

/-- The tag-filter clause of the `read_samples` query as a predicate on a
sample id: `True` means the clause imposes no constraint on the sample.
Mirrors the `try/except (JSONDecodeError, ValueError): pass` control flow:
a parse failure anywhere drops the whole filter. -/
def tagFilterPred (uuidOf : String → Option Nat) (assoc : Finset (Nat × Nat)) (sid : Nat) :
    Option (Except Unit (List (List String))) → Bool
  | Option.none => true
  | some (.error _) => true
  | some (.ok groups) =>
    if groups.isEmpty then true
    else
      match buildGroupConds uuidOf groups with
      | .error _ => true
      | .ok conds =>
        if conds.isEmpty then true
        else conds.any (fun g => rowCount assoc sid g == g.length)

/-- The code's matcher on already-parsed tag-id groups (what the built
query evaluates once every UUID string parsed): the conditions of the
nonempty groups, OR-ed, with no constraint at all when none were
collected. -/
def dnfCodeMatches (assoc : Finset (Nat × Nat)) (sid : Nat) (groups : List (List Nat)) : Bool :=
  if ((groups.filter (fun g => !g.isEmpty)).map
      (fun g => rowCount assoc sid g == g.length)).isEmpty then true
  else ((groups.filter (fun g => !g.isEmpty)).map
      (fun g => rowCount assoc sid g == g.length)).any id

/-- A concrete stand-in for `uuid.UUID` used to run the route on explicit
inputs: accepts the strings `"1"`, `"2"`, `"3"` and rejects everything
else. -/
def uuidOfDigit (t : String) : Option Nat :=
  if t = "1" then some 1 else if t = "2" then some 2 else if t = "3" then some 3
  else Option.none

/-- The DNF semantics as the claim states it: the sample satisfies ALL tags
of at least ONE group. -/
def dnfSpecMatches (assoc : Finset (Nat × Nat)) (sid : Nat) (groups : List (List Nat)) : Bool :=
  groups.any (fun g => g.all (fun t => decide ((sid, t) ∈ assoc)))

/-- A sample row as the `read_samples` query sees it (fields used by the
modelled filter clauses). -/
structure QSample where
  id : Nat
  owner_id : Nat
  status : SampleStatus
  minio_instance_id : Nat
  bucket : String
deriving Repr, DecidableEq

/-- The `read_samples` filter pipeline as a match predicate on one sample:
owner scoping, lifecycle-status filter (defaulting to `active`), optional
instance and bucket filters, the legacy single-tag join, and the DNF tag
filter.  Date range, fuzzy search, sorting and pagination are orthogonal
clauses not modelled here. -/
def readSamplesMatches (uuidOf : String → Option Nat) (assoc : Finset (Nat × Nat))
    (currentUserId : Nat) (status : Option SampleStatus) (instanceId : Option Nat)
    (bucket : Option String) (tagId : Option Nat)
    (tagFilter : Option (Except Unit (List (List String)))) (s : QSample) : Bool :=
  (s.owner_id == currentUserId)
  && (match status with
      | some st => s.status == st
      | Option.none => s.status == SampleStatus.active)
  && (match instanceId with
      | some i => s.minio_instance_id == i
      | Option.none => true)
  && (match bucket with
      | some b => s.bucket == b
      | Option.none => true)
  && (match tagId with
      | some t => decide ((s.id, t) ∈ assoc)
      | Option.none => true)
  && tagFilterPred uuidOf assoc s.id tagFilter

/-! ## VOC-XML parser (`app/services/annotation_service.py`)

`ET.fromstring` is a collaborator: its outcome on the input bytes is the
parser's input here — `.error ()` for non-well-formed bytes (the
`ET.ParseError` the function catches), `.ok root` for the parsed element
tree.  `Element.find`/`findall` search direct children; `Element.text` is
`None` for childless empty elements.  Python's `int(x)` raises `TypeError`
on `None` and `ValueError` on a non-numeric string; neither is caught by
`except ET.ParseError`, so they are modelled as `Except.error` results that
propagate. -/

/-- An element tree node: tag, text, children. -/
inductive Xml where
  | elem (tag : String) (text : Option String) (children : List Xml)

/-- Tag of a node. -/
def Xml.tag : Xml → String
  | .elem t _ _ => t

/-- Text of a node (`None` when the element has no text). -/
def Xml.text : Xml → Option String
  | .elem _ tx _ => tx

/-- Children of a node. -/
def Xml.children : Xml → List Xml
  | .elem _ _ c => c

/-- Model of `Element.find(tag)`: first direct child with the tag. -/
def xmlFind (x : Xml) (t : String) : Option Xml :=
  x.children.find? (fun c => c.tag == t)

/-- Model of `Element.findall(tag)`: all direct children with the tag. -/
def xmlFindall (x : Xml) (t : String) : List Xml :=
  x.children.filter (fun c => c.tag == t)

/-- Exceptions `int()` can raise. -/
inductive PyError where
  | typeError
  | valueError
deriving Repr, DecidableEq

/-- Digit-string value, `none` if empty or containing a non-digit. -/
def digitsVal : List Char → Option Nat
  | [] => Option.none
  | ds =>
    ds.foldl
      (fun acc c =>
        match acc with
        | Option.none => Option.none
        | some n => if c.isDigit then some (n * 10 + (c.toNat - 48)) else Option.none)
      (some 0)

/-- Model of `int(s)` on a string: surrounding whitespace stripped, optional sign,
decimal digits; anything else raises `ValueError`. -/
def pyIntOfString (s : String) : Except PyError Int :=
  let t := (s.data.dropWhile Char.isWhitespace).reverse.dropWhile Char.isWhitespace |>.reverse
  let signed : Int × List Char :=
    match t with
    | '-' :: rest => (-1, rest)
    | '+' :: rest => (1, rest)
    | _ => (1, t)
  match digitsVal signed.2 with
  | some n => .ok (signed.1 * n)
  | Option.none => .error .valueError

/-- Model of `int(x)` on an optional text: `TypeError` on `None`. -/
def pyInt : Option String → Except PyError Int
  | Option.none => .error .typeError
  | some s => pyIntOfString s

/-- One detected object, as the code's dict literal: the `"class"` key
holds `name_elem.text`, which may be `None`. -/
structure VocObject where
  cls : Option String
  xmin : Int
  ymin : Int
  xmax : Int
  ymax : Int
deriving Repr, DecidableEq

/-- Model of `ParsedAnnotation` dataclass.  `filename` is `Option String` because
`filename_elem.text` may be `None` even when the element is present. -/
structure ParsedAnnotation where
  filename : Option String
  image_width : Int
  image_height : Int
  object_count : Nat
  class_counts : List (Option String × Nat)
  objects : List VocObject
deriving Repr, DecidableEq

/-- Model of `class_counts[name] = class_counts.get(name, 0) + 1`, preserving dict
insertion order. -/
def bumpCount (m : List (Option String × Nat)) (k : Option String) :
    List (Option String × Nat) :=
  if (m.lookup k).isSome then
    m.map (fun kv => if kv.1 = k then (kv.1, kv.2 + 1) else kv)
  else m ++ [(k, 1)]

/-- The `for obj in root.findall("object")` loop: objects lacking a `name`
or `bndbox` child, or any of the four coordinates, are skipped; `int()` on
a coordinate's text can raise and then aborts the whole call. -/
def parseObjectsLoop :
    List Xml → List VocObject → List (Option String × Nat) →
    Except PyError (List VocObject × List (Option String × Nat))
  | [], acc, counts => .ok (acc, counts)
  | obj :: rest, acc, counts =>
    match xmlFind obj "name" with
    | Option.none => parseObjectsLoop rest acc counts
    | some nameElem =>
      match xmlFind obj "bndbox" with
      | Option.none => parseObjectsLoop rest acc counts
      | some bb =>
        match xmlFind bb "xmin", xmlFind bb "ymin", xmlFind bb "xmax", xmlFind bb "ymax" with
        | some x1, some y1, some x2, some y2 => do
          let xi ← pyInt x1.text
          let yi ← pyInt y1.text
          let xa ← pyInt x2.text
          let ya ← pyInt y2.text
          parseObjectsLoop rest (acc ++ [⟨nameElem.text, xi, yi, xa, ya⟩])
            (bumpCount counts nameElem.text)
        | _, _, _, _ => parseObjectsLoop rest acc counts

/-- Model of `parse_voc_xml`: `.ok none` models the `return None` of the
`except ET.ParseError` handler; `.error e` models an uncaught exception
escaping the function. -/
def parseVocXml (input : Except Unit Xml) : Except PyError (Option ParsedAnnotation) :=
  match input with
  | .error _ => .ok Option.none
  | .ok root => do
    let filename : Option String :=
      match xmlFind root "filename" with
      | some e => e.text
      | Option.none => some ""
    let wh : Int × Int ←
      (match xmlFind root "size" with
      | Option.none => Except.ok ((0 : Int), (0 : Int))
      | some sizeElem => do
        let w : Int ←
          (match xmlFind sizeElem "width" with
          | some we => pyInt we.text
          | Option.none => Except.ok 0)
        let h : Int ←
          (match xmlFind sizeElem "height" with
          | some he => pyInt he.text
          | Option.none => Except.ok 0)
        Except.ok (w, h))
    let oc ← parseObjectsLoop (xmlFindall root "object") [] []
    .ok (some ⟨filename, wh.1, wh.2, oc.1.length, oc.2, oc.1⟩)

/-- Element tree of the well-formed document
`<annotation><size><width>abc</width><height>10</height></size></annotation>`
whose width text is not numeric. -/
def vocNonNumericTree : Xml :=
  .elem "annotation" Option.none
    [.elem "size" Option.none
      [.elem "width" (some "abc") [], .elem "height" (some "10") []]]

/-- Element tree of a fully regular VOC document with two `person` objects
and one `car` object. -/
def vocDemoTree : Xml :=
  .elem "annotation" Option.none
    [ .elem "filename" (some "img1.jpg") []
    , .elem "size" Option.none
        [.elem "width" (some "1920") [], .elem "height" (some "1080") []]
    , .elem "object" Option.none
        [ .elem "name" (some "person") []
        , .elem "bndbox" Option.none
            [ .elem "xmin" (some "10") [], .elem "ymin" (some "20") []
            , .elem "xmax" (some "30") [], .elem "ymax" (some "40") [] ] ]
    , .elem "object" Option.none
        [ .elem "name" (some "person") []
        , .elem "bndbox" Option.none
            [ .elem "xmin" (some "1") [], .elem "ymin" (some "2") []
            , .elem "xmax" (some "3") [], .elem "ymax" (some "4") [] ] ]
    , .elem "object" Option.none
        [ .elem "name" (some "car") []
        , .elem "bndbox" Option.none
            [ .elem "xmin" (some "5") [], .elem "ymin" (some "6") []
            , .elem "xmax" (some "7") [], .elem "ymax" (some "8") [] ] ] ]

/-! ## Webhook reconciliation state machine (`app/api/routes/webhooks.py`)

The database session is an explicit record of the three mutated tables plus
an id source (Python uses UUIDs; a counter is an equivalent supply of fresh
ids).  Timestamps (`created_at`, `updated_at`) are not modelled;
`deleted_at` is kept as a flag because the resurrect path clears it.
History rows keep their `action`; the JSON `details` payloads are elided.
The MinIO client is the `ObjectStore` collaborator: `listObjects` models
`client.list_objects(bucket, recursive=True)` and `getParsed` models
`get_object` + `read` + `parse_voc_xml` on one key (`.error ()` any raised
exception, `.ok none` a caught parse failure returning `None`, `.ok (some
p)` a successful parse).  The store's UNIQUE constraint on
`Annotation.sample_id` (`models.py`) is modelled: the link step's
`session.flush()` fails when the sample already has an Annotation row, and
since every subsequent write of that code path sits in the failed
transaction, such an attempt persists nothing (see `linkAnnotationTo`,
`findAndLink`, `handleAnnotationCreated`). -/

/-- Model of `MinIOInstance` row (fields the handlers read). -/
structure MinioInstance where
  id : Nat
  owner_id : Nat
deriving Repr, DecidableEq

/-- Model of `Sample` row. -/
structure SampleR where
  id : Nat
  minio_instance_id : Nat
  owner_id : Nat
  bucket : String
  object_key : String
  file_name : String
  file_size : Nat
  etag : String
  content_type : Option String
  source : String
  status : SampleStatus
  deleted_at : Bool
  file_hash : Option String
  file_stem : Option String
  annotation_status : AnnotationStatus
  annotation_key : Option String
  annotation_hash : Option String
  annotation_id : Option Nat
deriving Repr, DecidableEq

/-- Model of `Annotation` row. -/
structure AnnotationR where
  id : Nat
  sample_id : Nat
  format : String
  image_width : Int
  image_height : Int
  object_count : Nat
  class_counts : List (Option String × Nat)
  objects : List VocObject
deriving Repr, DecidableEq

/-- Model of `SampleHistoryAction` enum (the actions the webhook handlers write). -/
inductive HistoryAction where
  | created
  | deleted
  | annotation_linked
  | annotation_conflict
  | annotation_removed
deriving Repr, DecidableEq

/-- Model of `SampleHistory` row (details payload elided). -/
structure HistoryR where
  sample_id : Nat
  action : HistoryAction
deriving Repr, DecidableEq

/-- The session's view of the database. -/
structure DB where
  samples : List SampleR
  annotations : List AnnotationR
  histories : List HistoryR
  nextId : Nat
deriving Repr, DecidableEq

/-- The empty database. -/
def emptyDB : DB := ⟨[], [], [], 0⟩

/-- Listing entry returned by `client.list_objects`. -/
structure ObjMeta where
  object_name : String
  etag : Option String
deriving Repr, DecidableEq

/-- The object-store collaborator. -/
structure ObjectStore where
  listObjects : String → List ObjMeta
  getParsed : String → String → Except Unit (Option ParsedAnnotation)

/-- Model of `object_info` fields the handlers read (`.get("eTag", "")` etc.). -/
structure ObjInfo where
  etag : String
  size : Nat
  content_type : Option String
deriving Repr, DecidableEq

/-- Model of `str.strip(c)` for the double-quote character: remove every leading and
trailing occurrence. -/
def stripQuotes (s : String) : String :=
  ⟨((s.data.dropWhile (fun c => c = Char.ofNat 34)).reverse.dropWhile
      (fun c => c = Char.ofNat 34)).reverse⟩

/-- Model of `os.path.basename`: the part after the last slash. -/
def pathBasename (s : String) : String :=
  ⟨(s.data.reverse.takeWhile (fun c => c ≠ '/')).reverse⟩

/-- Model of `os.path.splitext` on a basename: split at the last dot, except when
every character before it is a dot (then there is no extension). -/
def lastDotSplit (b : List Char) : List Char × List Char :=
  let revAfter := b.reverse.takeWhile (fun c => c ≠ '.')
  if revAfter.length = b.length then (b, [])
  else
    let stem := b.take (b.length - revAfter.length - 1)
    let ext := b.drop (b.length - revAfter.length - 1)
    if stem.all (fun c => c = '.') then (b, []) else (stem, ext)

/-- Model of `extract_file_stem` (`app/services/matching_service.py`): basename
without its extension. -/
def extractFileStem (filename : String) : String :=
  ⟨(lastDotSplit (pathBasename filename).data).1⟩

/-- Extension of a path, as `os.path.splitext(path)[1]` computes it. -/
def pathExt (s : String) : String :=
  ⟨(lastDotSplit (pathBasename s).data).2⟩

/-- ASCII lower-casing (sufficient for the extension sets matched). -/
def lowerStr (s : String) : String :=
  ⟨s.data.map (fun c => if 65 ≤ c.toNat ∧ c.toNat ≤ 90 then Char.ofNat (c.toNat + 32) else c)⟩

/-- Model of `IMAGE_EXTENSIONS`. -/
def IMAGE_EXTENSIONS : List String :=
  [".jpg", ".jpeg", ".png", ".gif", ".bmp", ".tiff", ".webp"]

/-- Model of `ANNOTATION_EXTENSIONS`. -/
def ANNOTATION_EXTENSIONS : List String := [".xml"]

/-- Model of `_is_image_file`. -/
def isImageFile (key : String) : Bool :=
  IMAGE_EXTENSIONS.contains (pathExt (lowerStr key))

/-- Model of `_is_annotation_file`. -/
def isAnnotationFile (key : String) : Bool :=
  ANNOTATION_EXTENSIONS.contains (pathExt (lowerStr key))

/-- Model of `str.startswith`. -/
def strStarts (s p : String) : Bool :=
  s.data.take p.data.length == p.data

/-- The shared link step: `session.add` the `Annotation` row, then
`session.flush()` to obtain its id.  The store enforces a UNIQUE
constraint on `Annotation.sample_id` (`models.py`), so when the sample
already has an Annotation row the flush raises `IntegrityError` — before
the `annotation_status = linked` assignment is reached — and the
transaction is failed: nothing from the attempt is persisted (`.error`).
On success the sample is pointed at the new row with status `linked` and
the `annotation_linked` history row is appended. -/
def linkAnnotationTo (db : DB) (s : SampleR) (annKey : String) (annHash : Option String)
    (parsed : ParsedAnnotation) : Except Unit DB :=
  if db.annotations.any (fun a => a.sample_id == s.id) then .error ()
  else
    let annId := db.nextId
    let ann : AnnotationR :=
      ⟨annId, s.id, "voc", parsed.image_width, parsed.image_height, parsed.object_count,
        parsed.class_counts, parsed.objects⟩
    let s2 := { s with
      annotation_key := some annKey
      annotation_hash := annHash
      annotation_status := AnnotationStatus.linked
      annotation_id := some annId }
    .ok { db with
      annotations := db.annotations ++ [ann]
      samples := db.samples.map (fun x => if x.id = s.id then s2 else x)
      histories := db.histories ++ [⟨s.id, HistoryAction.annotation_linked⟩]
      nextId := annId + 1 }

/-- Set a sample's `annotation_status` to `error` (the `except` branches). -/
def setAnnotationError (db : DB) (sid : Nat) : DB :=
  { db with
    samples := db.samples.map
      (fun x => if x.id = sid then { x with annotation_status := AnnotationStatus.error } else x) }

/-- Model of `find_and_link_annotation`: scan the bucket for the first
annotation-extension object with a matching stem; parse it and link on
success.  A parse returning `None` falls through to `return False` with no
status change; a raised fetch/parse exception sets status `error`.  When
the flush inside the link step raises `IntegrityError`, the inner
`except` branch's status write joins the already-failed transaction and
its `session.commit()` raises `PendingRollbackError`, which the OUTER
`except` swallows — so the attempt persists nothing and the scan reports
no link.  A falsy (`None` or empty) `file_stem` skips the scan. -/
def findAndLink (store : ObjectStore) (db : DB) (sample : SampleR) : Bool × DB :=
  match sample.file_stem with
  | Option.none => (false, db)
  | some st =>
    if st = "" then (false, db)
    else
      match (store.listObjects sample.bucket).find?
        (fun o => isAnnotationFile o.object_name && (extractFileStem o.object_name == st)) with
      | Option.none => (false, db)
      | some obj =>
        let annHash := match obj.etag with
          | some e => some (stripQuotes e)
          | Option.none => Option.none
        match store.getParsed sample.bucket obj.object_name with
        | .ok (some parsed) =>
          match linkAnnotationTo db sample obj.object_name annHash parsed with
          | .ok db2 => (true, db2)
          | .error _ => (false, db)
        | .ok Option.none => (false, db)
        | .error _ => (false, setAnnotationError db sample.id)

/-- The path-existence / creation part of `_handle_image_created` (after
the hash-dedup check). -/
def handleImageCreatedMain (store : ObjectStore) (inst : MinioInstance) (db : DB)
    (bucket key : String) (info : ObjInfo) (etag : String) (fileHash : Option String) :
    Nat × DB :=
  match db.samples.find? (fun s =>
      s.minio_instance_id == inst.id && s.bucket == bucket && s.object_key == key) with
  | some existing =>
    if existing.status = SampleStatus.deleted then
      let e2 := { existing with
        status := SampleStatus.active
        deleted_at := false
        file_hash := fileHash
        file_stem := some (extractFileStem key) }
      let db2 := { db with
        samples := db.samples.map (fun x => if x.id = existing.id then e2 else x) }
      (1, (findAndLink store db2 e2).2)
    else (0, db)
  | Option.none =>
    let sid := db.nextId
    let sample : SampleR :=
      { id := sid
        minio_instance_id := inst.id
        owner_id := inst.owner_id
        bucket := bucket
        object_key := key
        file_name := pathBasename key
        file_size := info.size
        etag := etag
        content_type := info.content_type
        source := "webhook"
        status := SampleStatus.active
        deleted_at := false
        file_hash := fileHash
        file_stem := some (extractFileStem key)
        annotation_status := AnnotationStatus.none
        annotation_key := Option.none
        annotation_hash := Option.none
        annotation_id := Option.none }
    let db2 := { db with
      samples := db.samples ++ [sample]
      histories := db.histories ++ [⟨sid, HistoryAction.created⟩]
      nextId := sid + 1 }
    (1, (findAndLink store db2 sample).2)

/-- Model of `_handle_image_created`: ETag hash dedup first (scoped to the event's
storage instance), then path lookup / resurrect / create. -/
def handleImageCreated (store : ObjectStore) (inst : MinioInstance) (db : DB)
    (bucket key : String) (info : ObjInfo) : Nat × DB :=
  let etag := stripQuotes info.etag
  let fileHash : Option String := if etag = "" then Option.none else some etag
  match fileHash with
  | some hsh =>
    match db.samples.find? (fun s =>
        s.minio_instance_id == inst.id && s.file_hash == some hsh
          && s.status == SampleStatus.active) with
    | some _ => (0, db)
    | Option.none => handleImageCreatedMain store inst db bucket key info etag fileHash
  | Option.none => handleImageCreatedMain store inst db bucket key info etag fileHash

/-- The matched-sample lookup of `_handle_annotation_created`: active
sample of the same instance and bucket whose `file_stem` equals the
annotation's stem. -/
def findAnnotationTarget (db : DB) (inst : MinioInstance) (bucket stem : String) :
    Option SampleR :=
  db.samples.find? (fun s =>
    s.minio_instance_id == inst.id && s.bucket == bucket
      && s.file_stem == some stem && s.status == SampleStatus.active)

/-- Model of `_handle_annotation_created`.  When the link step's flush
raises `IntegrityError` (the matched sample already has an Annotation
row), the handler's `except` branch tries `annotation_status = error;
session.commit()`, but the commit on the failed transaction raises
`PendingRollbackError`, which escapes the handler and the webhook route;
the transaction is rolled back, so the event persists nothing — modelled
as `.error ()`.  A fetch/parse exception (`getParsed = .error`), by
contrast, leaves the transaction healthy, so the `except` branch does
persist the `error` status. -/
def handleAnnotationCreated (store : ObjectStore) (inst : MinioInstance) (db : DB)
    (bucket key : String) (info : ObjInfo) : Except Unit (Nat × DB) :=
  let stem := extractFileStem key
  let annHash := stripQuotes info.etag
  match findAnnotationTarget db inst bucket stem with
  | Option.none => .ok (0, db)
  | some sample =>
    if sample.annotation_status = AnnotationStatus.linked then
      if sample.annotation_hash = some annHash then .ok (0, db)
      else
        let s2 := { sample with annotation_status := AnnotationStatus.conflict }
        .ok (1, { db with
          samples := db.samples.map (fun x => if x.id = sample.id then s2 else x)
          histories := db.histories ++ [⟨sample.id, HistoryAction.annotation_conflict⟩] })
    else
      match store.getParsed bucket key with
      | .ok (some parsed) =>
        match linkAnnotationTo db sample key (some annHash) parsed with
        | .ok db2 => .ok (1, db2)
        | .error _ => .error ()
      | .ok Option.none => .ok (0, setAnnotationError db sample.id)
      | .error _ => .ok (0, setAnnotationError db sample.id)

/-- Model of `_handle_image_removed`: soft delete plus history. -/
def handleImageRemoved (inst : MinioInstance) (db : DB) (bucket key : String) : Nat × DB :=
  match db.samples.find? (fun s =>
      s.minio_instance_id == inst.id && s.bucket == bucket && s.object_key == key) with
  | Option.none => (0, db)
  | some sample =>
    let s2 := { sample with status := SampleStatus.deleted, deleted_at := true }
    (1, { db with
      samples := db.samples.map (fun x => if x.id = sample.id then s2 else x)
      histories := db.histories ++ [⟨sample.id, HistoryAction.deleted⟩] })

/-- Model of `_handle_annotation_removed`: delete the (first) `Annotation` row of the
matched sample, clear the denormalized fields, reset status to `none`. -/
def handleAnnotationRemoved (inst : MinioInstance) (db : DB) (bucket key : String) : Nat × DB :=
  match db.samples.find? (fun s =>
      s.minio_instance_id == inst.id && s.bucket == bucket
        && s.annotation_key == some key) with
  | Option.none => (0, db)
  | some sample =>
    let s2 := { sample with
      annotation_key := Option.none
      annotation_hash := Option.none
      annotation_status := AnnotationStatus.none
      annotation_id := Option.none }
    (1, { db with
      annotations := db.annotations.eraseP (fun a => a.sample_id == sample.id)
      samples := db.samples.map (fun x => if x.id = sample.id then s2 else x)
      histories := db.histories ++ [⟨sample.id, HistoryAction.annotation_removed⟩] })

/-- One record of a webhook payload (after JSON extraction in
`receive_minio_webhook`). -/
structure EventRec where
  eventName : String
  bucket : String
  object_key : String
  info : ObjInfo
deriving Repr, DecidableEq

/-- The per-record dispatch of `receive_minio_webhook`: created/removed
prefix, then image vs annotation extension.  An exception escaping a
handler escapes the route (`.error`). -/
def processRecord (store : ObjectStore) (inst : MinioInstance) (db : DB) (rec : EventRec) :
    Except Unit (Nat × DB) :=
  if strStarts rec.eventName "s3:ObjectCreated" then
    if isImageFile rec.object_key then
      .ok (handleImageCreated store inst db rec.bucket rec.object_key rec.info)
    else if isAnnotationFile rec.object_key then
      handleAnnotationCreated store inst db rec.bucket rec.object_key rec.info
    else .ok (0, db)
  else if strStarts rec.eventName "s3:ObjectRemoved" then
    if isImageFile rec.object_key then
      .ok (handleImageRemoved inst db rec.bucket rec.object_key)
    else if isAnnotationFile rec.object_key then
      .ok (handleAnnotationRemoved inst db rec.bucket rec.object_key)
    else .ok (0, db)
  else .ok (0, db)

/-- A sequence of webhook records processed in order; an exception aborts
the batch (the route has no handler around the per-record loop). -/
def processEvents (store : ObjectStore) (inst : MinioInstance) :
    List EventRec → DB → Except Unit DB
  | [], db => .ok db
  | e :: es, db =>
    match processRecord store inst db e with
    | .ok r => processEvents store inst es r.2
    | .error x => .error x

/-- A one-object parsed annotation used by the concrete scenarios. -/
def demoParsed : ParsedAnnotation :=
  ⟨some "cat.jpg", 10, 10, 1, [(some "person", 1)], [⟨some "person", 1, 2, 3, 4⟩]⟩

/-- Object store for the re-link scenarios: bucket listings are empty
(the image arrives before any annotation file is visible); fetching
`labels/cat.xml` yields a parse failure while `labels2/cat.xml` and
`labels4/cat.xml` parse. -/
def storeRelink : ObjectStore :=
  { listObjects := fun _ => []
    getParsed := fun _ k =>
      if k = "labels/cat.xml" then .ok Option.none
      else if k = "labels2/cat.xml" then .ok (some demoParsed)
      else if k = "labels4/cat.xml" then .ok (some demoParsed)
      else .error () }

/-- Instance `1`, owner `7`. -/
def instOne : MinioInstance := ⟨1, 7⟩

/-- Second instance of the same owner `7`. -/
def instTwo : MinioInstance := ⟨2, 7⟩

/-- Image-created event for `images/cat.jpg`. -/
def evImage : EventRec := ⟨"s3:ObjectCreated:Put", "b", "images/cat.jpg", ⟨"\"h1\"", 5, Option.none⟩⟩

/-- Annotation-created event whose payload fails to parse (stem `cat`). -/
def evBadAnn : EventRec := ⟨"s3:ObjectCreated:Put", "b", "labels/cat.xml", ⟨"\"a1\"", 3, Option.none⟩⟩

/-- Annotation-created event whose payload parses (stem `cat`, different
key and hash). -/
def evGoodAnn : EventRec := ⟨"s3:ObjectCreated:Put", "b", "labels2/cat.xml", ⟨"\"a2\"", 3, Option.none⟩⟩

/-- Third annotation-created event for the same stem with yet another hash
(`a3`): against a `linked` sample it takes the conflict branch, which
never fetches the payload. -/
def evAnn3 : EventRec := ⟨"s3:ObjectCreated:Put", "b", "labels3/cat.xml", ⟨"\"a3\"", 3, Option.none⟩⟩

/-- Object store with nothing visible (for the dedup scenario). -/
def storeEmpty : ObjectStore :=
  { listObjects := fun _ => [], getParsed := fun _ _ => .error () }

/-- Model of `object_info` carrying ETag `"h"`. -/
def infoHashH : ObjInfo := ⟨"\"h\"", 5, Option.none⟩

/-- The sample row as it stands after `evImage` then `evBadAnn`: stem
`cat`, annotation status `error`, no Annotation row. -/
def sampleErrState : SampleR :=
  { id := 0
    minio_instance_id := 1
    owner_id := 7
    bucket := "b"
    object_key := "images/cat.jpg"
    file_name := "cat.jpg"
    file_size := 5
    etag := "h1"
    content_type := Option.none
    source := "webhook"
    status := SampleStatus.active
    deleted_at := false
    file_hash := some "h1"
    file_stem := some "cat"
    annotation_status := AnnotationStatus.error
    annotation_key := Option.none
    annotation_hash := Option.none
    annotation_id := Option.none }

/-- The database reached by `evImage` then `evBadAnn`: one sample in state
`error` with no Annotation row. -/
def dbErrState : DB :=
  (processEvents storeRelink instOne [evImage, evBadAnn] emptyDB).toOption.getD emptyDB

/-- The database reached by `evImage`, `evGoodAnn` (links, creating the
Annotation row), then `evAnn3` (different hash, so `linked → conflict`):
one sample in state `conflict` that still holds its Annotation row. -/
def dbConfState : DB :=
  (processEvents storeRelink instOne [evImage, evGoodAnn, evAnn3] emptyDB).toOption.getD emptyDB

/-- The sample row of `dbConfState`: status `conflict`, annotation fields
still pointing at the `labels2` annotation. -/
def sampleConfState : SampleR :=
  { id := 0
    minio_instance_id := 1
    owner_id := 7
    bucket := "b"
    object_key := "images/cat.jpg"
    file_name := "cat.jpg"
    file_size := 5
    etag := "h1"
    content_type := Option.none
    source := "webhook"
    status := SampleStatus.active
    deleted_at := false
    file_hash := some "h1"
    file_stem := some "cat"
    annotation_status := AnnotationStatus.conflict
    annotation_key := some "labels2/cat.xml"
    annotation_hash := some "a2"
    annotation_id := some 1 }

/-- The single sample row of `dbOneSample`. -/
def sampleHashH : SampleR :=
  { id := 0
    minio_instance_id := 1
    owner_id := 7
    bucket := "b"
    object_key := "a.jpg"
    file_name := "a.jpg"
    file_size := 5
    etag := "h"
    content_type := Option.none
    source := "webhook"
    status := SampleStatus.active
    deleted_at := false
    file_hash := some "h"
    file_stem := some "a"
    annotation_status := AnnotationStatus.none
    annotation_key := Option.none
    annotation_hash := Option.none
    annotation_id := Option.none }

/-- Database holding one active sample with hash `h` on instance `1`. -/
def dbOneSample : DB :=
  (handleImageCreated storeEmpty instOne emptyDB "b" "a.jpg" infoHashH).2

/-! ## Auto-tagging rule engine (`app/services/auto_tagging_service.py`)

`re.search(pattern, text)` is a collaborator, embedded as an explicit
parameter `research : String → String → Bool`; `uuid.UUID` as in the
route model.  The session is a record of the four tables the executors
touch; `session.commit()` is a no-op on the explicit state. -/

/-- Model of `TaggingRuleType` enum. -/
inductive TaggingRuleType where
  | fixed
  | mapping
deriving Repr, DecidableEq

/-- Model of `TaggingRule` row (fields the executors read).  `class_tag_mapping`
maps class names to tag-id strings, as stored in JSON. -/
structure TagRule where
  owner_id : Nat
  pattern : String
  rule_type : TaggingRuleType
  tag_ids : List Nat
  class_tag_mapping : List (String × String)
deriving Repr, DecidableEq

/-- Model of `Sample` row fields the executors read. -/
structure TagSample where
  id : Nat
  owner_id : Nat
  bucket : String
  object_key : String
  annotation_status : AnnotationStatus
deriving Repr, DecidableEq

/-- Model of `Annotation` row fields the mapping executor reads (class-count keys
may be `None`, as the parser can produce). -/
structure TagAnnotation where
  sample_id : Nat
  class_counts : List (Option String × Nat)
deriving Repr, DecidableEq

/-- Session state for rule execution. -/
structure TagDB where
  samples : List TagSample
  sampleTags : List (Nat × Nat)
  tags : List Nat
  annotations : List TagAnnotation
deriving Repr, DecidableEq

/-- The `matched`/`tagged`/`skipped`/`no_annotation` statistics dict. -/
structure RuleStats where
  matched : Nat
  tagged : Nat
  skipped : Nat
  no_annotation : Nat
deriving Repr, DecidableEq

/-- Model of `matches_rule`: regex search of the pattern against
`f"{bucket}/{object_key}"`. -/
def matchesRule (research : String → String → Bool) (pattern : String) (s : TagSample) : Bool :=
  research pattern (s.bucket ++ "/" ++ s.object_key)

/-- Model of `_apply_tag_to_sample`: add the association unless present; report
whether it was added. -/
def applyTag (db : TagDB) (sid tid : Nat) : Bool × TagDB :=
  if (db.sampleTags.find? (fun p => p.1 == sid && p.2 == tid)).isSome then (false, db)
  else (true, { db with sampleTags := db.sampleTags ++ [(sid, tid)] })

/-- One tag application inside an executor: bump `tagged` or `skipped`
according to `_apply_tag_to_sample`. -/
def applyTagsStep (sid : Nat) (a : RuleStats × TagDB) (tid : Nat) : RuleStats × TagDB :=
  let r := applyTag a.2 sid tid
  if r.1 then ({ a.1 with tagged := a.1.tagged + 1 }, r.2)
  else ({ a.1 with skipped := a.1.skipped + 1 }, r.2)

/-- The per-sample body of `_execute_fixed_rule`: on a match, count it and
— unless `dry_run` — apply every tag of the rule. -/
def fixedStep (research : String → String → Bool) (pattern : String) (tagIds : List Nat)
    (dryRun : Bool) (acc : RuleStats × TagDB) (s : TagSample) : RuleStats × TagDB :=
  if matchesRule research pattern s then
    let acc1 := ({ acc.1 with matched := acc.1.matched + 1 }, acc.2)
    if dryRun then acc1 else tagIds.foldl (applyTagsStep s.id) acc1
  else acc

/-- Model of `_execute_fixed_rule`: iterate the owner's samples. -/
def execFixedRule (research : String → String → Bool) (db : TagDB) (rule : TagRule)
    (dryRun : Bool) : RuleStats × TagDB :=
  (db.samples.filter (fun s => s.owner_id == rule.owner_id)).foldl
    (fixedStep research rule.pattern rule.tag_ids dryRun) (⟨0, 0, 0, 0⟩, db)

/-- Model of `rule.class_tag_mapping.get(class_name)`: a `None` class name (which
the parser can produce) finds nothing among the string keys. -/
def classLookup (mapping : List (String × String)) : Option String → Option String
  | some n => mapping.lookup n
  | Option.none => Option.none

/-- The per-class body of `_execute_mapping_rule`: look the class name up
in the mapping; a falsy (missing or empty) tag-id string or a dry run does
nothing; an invalid UUID or a missing `Tag` row is logged and skipped. -/
def mappingClassStep (uuidOf : String → Option Nat) (mapping : List (String × String))
    (dryRun : Bool) (sid : Nat) (a : RuleStats × TagDB) (clsName : Option String) :
    RuleStats × TagDB :=
  match classLookup mapping clsName with
  | Option.none => a
  | some tidStr =>
    if tidStr ≠ "" ∧ ¬dryRun then
      match uuidOf tidStr with
      | Option.none => a
      | some tid => if a.2.tags.contains tid then applyTagsStep sid a tid else a
    else a

/-- The per-sample body of `_execute_mapping_rule`: count the match, then
count `no_annotation` when the sample's Annotation row is missing or has
empty class counts, else run the per-class loop. -/
def mappingStep (research : String → String → Bool) (uuidOf : String → Option Nat)
    (pattern : String) (mapping : List (String × String)) (dryRun : Bool)
    (acc : RuleStats × TagDB) (s : TagSample) : RuleStats × TagDB :=
  if !(matchesRule research pattern s) then acc
  else
    let acc1 := ({ acc.1 with matched := acc.1.matched + 1 }, acc.2)
    match acc1.2.annotations.find? (fun a => a.sample_id == s.id) with
    | Option.none => ({ acc1.1 with no_annotation := RuleStats.no_annotation acc1.1 + 1 }, acc1.2)
    | some ann =>
      if ann.class_counts.isEmpty then
        ({ acc1.1 with no_annotation := RuleStats.no_annotation acc1.1 + 1 }, acc1.2)
      else
        (ann.class_counts.map Prod.fst).foldl
          (mappingClassStep uuidOf mapping dryRun s.id) acc1

/-- Model of `_execute_mapping_rule`: empty mapping short-circuits; otherwise
iterate the owner's `linked` samples. -/
def execMappingRule (research : String → String → Bool) (uuidOf : String → Option Nat)
    (db : TagDB) (rule : TagRule) (dryRun : Bool) : RuleStats × TagDB :=
  if rule.class_tag_mapping.isEmpty then (⟨0, 0, 0, 0⟩, db)
  else
    (db.samples.filter (fun s =>
        s.owner_id == rule.owner_id
          && s.annotation_status == AnnotationStatus.linked)).foldl
      (mappingStep research uuidOf rule.pattern rule.class_tag_mapping dryRun)
      (⟨0, 0, 0, 0⟩, db)

/-- Model of `execute_rule`: dispatch on the rule type (`mapping`, else fixed). -/
def executeRule (research : String → String → Bool) (uuidOf : String → Option Nat)
    (db : TagDB) (rule : TagRule) (dryRun : Bool) : RuleStats × TagDB :=
  match rule.rule_type with
  | TaggingRuleType.mapping => execMappingRule research uuidOf db rule dryRun
  | TaggingRuleType.fixed => execFixedRule research db rule dryRun

/-- One matching untagged sample and a fixed rule carrying tag `5`. -/
def dbOneUntagged : TagDB :=
  { samples := [⟨0, 7, "b", "k.jpg", AnnotationStatus.none⟩]
    sampleTags := []
    tags := [5]
    annotations := [] }

/-- Fixed rule of owner `7` with one tag. -/
def ruleFixedOne : TagRule :=
  { owner_id := 7, pattern := "k", rule_type := TaggingRuleType.fixed
    tag_ids := [5], class_tag_mapping := [] }

/-! ## Theorems about the sampling engine -/

/-- Folding the score body over any `remaining` dict with an empty
class-count map leaves the accumulator unchanged: every contribution is
`min(0, target) / target = 0`. -/
lemma foldl_score_nil (rem : List (String × Int)) (a : Rat) :
    rem.foldl
      (fun score ct =>
        if ct.2 > 0 then
          score + (min (lookupD [] ct.1 : Int) ct.2 : Int) / (ct.2 : Rat)
        else score)
      a = a := by
  induction rem generalizing a with
  | nil => rfl
  | cons hd tl ih =>
    rcases hd with ⟨k, t⟩
    simp only [List.foldl_cons]
    by_cases h : t > 0
    · have hmin : min ((lookupD [] k : Int)) t = 0 := by
        have : lookupD [] k = 0 := rfl
        rw [this]
        exact min_eq_left (by exact_mod_cast le_of_lt h)
      rw [if_pos h, hmin]
      simpa using ih (a + 0 / (t : Rat))
    · rw [if_neg h]
      exact ih a

/-- The score the code computes coincides, on every input, with the
"divide by current remaining" formula. -/
lemma calculateScore_eq_remainingScore (cc : List (String × Nat)) (rem : List (String × Int)) :
    calculateScore cc rem = remainingScore rem cc := by
  unfold calculateScore remainingScore
  by_cases h : cc.isEmpty
  · rw [if_pos h]
    have hcc : cc = [] := List.isEmpty_iff.mp h
    subst hcc
    exact (foldl_score_nil rem 0).symm
  · rw [if_neg h]

/-- C2: the claim's score formula (divide by the ORIGINAL `target_count`)
disagrees with the code at a reachable greedy iteration.  Running
`sample_by_class_targets` on two candidates each holding one `"a"` object
against target `{"a": 2}` reaches the iteration where `remaining = {"a": 1}`
with the second candidate unselected; there the code scores it
`min(1,1)/1 = 1` while the claim's formula gives `min(1,1)/2 = 1/2`. -/
theorem score_claim_counterexample :
    ([("a", 1)], [Cand.mk 2 [("a", 1)]]) ∈
        greedyTrace [⟨1, [("a", 1)]⟩, ⟨2, [("a", 1)]⟩] [("a", 2)]
    ∧ calculateScore [("a", 1)] [("a", 1)] = 1
    ∧ claimScore [("a", 2)] [("a", 1)] [("a", 1)] = 1 / 2
    ∧ (1 : Rat) ≠ 1 / 2 := by
  refine ⟨?_, ?_, ?_, by norm_num⟩
  · norm_num [greedyTrace, greedyLoop, greedyLoopF, sortBy, insertBy, calculateScore,
      updateRemaining, lookupD]
    decide
  · norm_num [calculateScore, lookupD]
  · norm_num [claimScore, lookupD]

/-- C2 (amended): at every greedy iteration of `sample_by_class_targets`,
the score of an unselected candidate equals the sum, over requested classes
whose remaining target is strictly positive, of `min(candidate count,
remaining[class])` divided by the CURRENT remaining target `remaining[class]`
(not the original `target_count`); fully satisfied classes contribute 0. -/
theorem score_divides_by_current_remaining (candidates : List Cand)
    (classTargets rem : List (String × Int)) (unsel : List Cand) (c : Cand)
    (hmem : (rem, unsel) ∈ greedyTrace candidates classTargets) (hc : c ∈ unsel) :
    calculateScore c.class_counts rem = remainingScore rem c.class_counts :=
  calculateScore_eq_remainingScore c.class_counts rem

/-- Witness instantiating `score_divides_by_current_remaining` at the
concrete run from the counterexample. -/
theorem score_divides_by_current_remaining_witness :
    (([("a", 1)], [Cand.mk 2 [("a", 1)]]) ∈
        greedyTrace [⟨1, [("a", 1)]⟩, ⟨2, [("a", 1)]⟩] [("a", 2)]
      ∧ Cand.mk 2 [("a", 1)] ∈ [Cand.mk 2 [("a", 1)]])
    ∧ calculateScore [("a", 1)] [("a", 1)] = remainingScore [("a", 1)] [("a", 1)] :=
  ⟨⟨by
      norm_num [greedyTrace, greedyLoop, greedyLoopF, sortBy, insertBy, calculateScore,
        updateRemaining, lookupD]
      decide, by norm_num⟩,
    score_divides_by_current_remaining [⟨1, [("a", 1)]⟩, ⟨2, [("a", 1)]⟩] [("a", 2)]
      [("a", 1)] [Cand.mk 2 [("a", 1)]] (Cand.mk 2 [("a", 1)])
      (by
        norm_num [greedyTrace, greedyLoop, greedyLoopF, sortBy, insertBy, calculateScore,
          updateRemaining, lookupD]
        decide)
      (by norm_num)⟩

/-- Looking a key up in a key-preserving map of an association list applies
the per-entry function to the first binding of that key. -/
lemma lookup_map_keyed {β γ : Type} (g : String → β → γ) (k : String) :
    ∀ l : List (String × β),
      (l.map (fun p => (p.1, g p.1 p.2))).lookup k = (l.lookup k).map (g k)
  | [] => rfl
  | (a, b) :: t => by
    by_cases h : k = a
    · subst h
      simp [List.lookup]
    · have hb : (k == a) = false := by simpa using h
      simp [List.lookup, hb, lookup_map_keyed g k t]

/-- C6 counterexample: with an empty candidate list and a requested class
of target `0`, `sample_by_class_targets` reports the class as `"partial"`,
not `"achieved"` — the empty-candidates early return marks every class
partial unconditionally. -/
theorem zero_target_counterexample :
    (sampleByClassTargets [] [("a", 0)]).target_achievement =
      [("a", ⟨0, 0, "partial"⟩)] ∧ "partial" ≠ "achieved" := by
  refine ⟨rfl, by decide⟩

/-- C6 (amended): a requested class whose target is `0` is reported
`"achieved"` whenever the candidate list is NON-empty; with an empty
candidate list every requested class — target `0` included — is reported
`"partial"` with `actual = 0` by the early return. -/
theorem zero_target_always_achieved :
    (∀ (candidates : List Cand) (classTargets : List (String × Int)) (cls : String),
      candidates ≠ [] → classTargets.lookup cls = some 0 →
      ∃ a, (sampleByClassTargets candidates classTargets).target_achievement.lookup cls = some a
        ∧ a.status = "achieved" ∧ a.target = 0)
    ∧ (∀ (classTargets : List (String × Int)) (cls : String),
        (sampleByClassTargets [] classTargets).target_achievement.lookup cls =
          (classTargets.lookup cls).map (fun t => ⟨t, 0, "partial"⟩)) := by
  constructor
  · intro candidates classTargets cls hne h0
    have hrw :
        (sampleByClassTargets candidates classTargets).target_achievement =
          classTargets.map (fun ct =>
            (ct.1, ClassAchievement.mk ct.2
              (((greedyLoop classTargets candidates).1.map
                  (fun s => lookupD s.class_counts ct.1)).sum)
              (if ((((greedyLoop classTargets candidates).1.map
                    (fun s => lookupD s.class_counts ct.1)).sum : Nat) : Int) ≥ ct.2
                then "achieved" else "partial"))) := by
      cases candidates with
      | nil => exact absurd rfl hne
      | cons a t => rfl
    rw [hrw]
    rw [lookup_map_keyed
      (fun k t => ClassAchievement.mk t
        (((greedyLoop classTargets candidates).1.map (fun s => lookupD s.class_counts k)).sum)
        (if ((((greedyLoop classTargets candidates).1.map
              (fun s => lookupD s.class_counts k)).sum : Nat) : Int) ≥ t then "achieved" else "partial"))
      cls classTargets]
    rw [h0]
    refine ⟨_, rfl, ?_, rfl⟩
    have hnn : ((((greedyLoop classTargets candidates).1.map
        (fun s => lookupD s.class_counts cls)).sum : Nat) : Int) ≥ (0 : Int) :=
      Int.ofNat_nonneg _
    simp only [Option.map_some]
    rw [if_pos hnn]
  · intro classTargets cls
    have hrw :
        (sampleByClassTargets [] classTargets).target_achievement =
          classTargets.map (fun ct => (ct.1, ClassAchievement.mk ct.2 0 "partial")) := rfl
    rw [hrw]
    exact lookup_map_keyed (fun _ t => ClassAchievement.mk t 0 "partial") cls classTargets

/-- Witness instantiating `zero_target_always_achieved` at a concrete
non-empty candidate list. -/
theorem zero_target_always_achieved_witness :
    ([Cand.mk 1 [("a", 1)]] ≠ ([] : List Cand)
      ∧ List.lookup "a" [("a", (0 : Int))] = some 0)
    ∧ ∃ a, (sampleByClassTargets [⟨1, [("a", 1)]⟩] [("a", 0)]).target_achievement.lookup "a"
        = some a ∧ a.status = "achieved" ∧ a.target = 0 :=
  ⟨⟨by decide, rfl⟩,
    zero_target_always_achieved.1 [⟨1, [("a", 1)]⟩] [("a", 0)] "a" (by decide) rfl⟩

/-- Selecting `k ≤ len` elements without replacement yields exactly `k`
elements. -/
lemma sampleAux_length {α : Type} :
    ∀ (k : Nat) (st : Nat) (xs : List α), k ≤ xs.length → (sampleAux st xs k).1.length = k
  | 0, _, _, _ => rfl
  | k + 1, st, xs, h => by
    have hne : xs.length ≠ 0 := by omega
    unfold sampleAux
    rw [dif_neg hne]
    have herase : (xs.eraseIdx (lcgNext st % xs.length)).length = xs.length - 1 :=
      List.length_eraseIdx_of_lt (Nat.mod_lt _ (Nat.pos_of_ne_zero hne))
    have hrec : (sampleAux (lcgNext st) (xs.eraseIdx (lcgNext st % xs.length)) k).1.length = k :=
      sampleAux_length k (lcgNext st) _ (by omega)
    simpa using hrec

/-- C8: `random_sample` signals an error exactly when `count` is negative;
for `count ≥ 0` it succeeds and returns `min(count, len(candidates))`
elements.  `sample_by_class_targets` is a total function: on every input it
returns a result whose `total_selected` matches the selection and whose
achievement report covers exactly the requested classes. -/
theorem sampling_failure_semantics :
    (∀ (α : Type) (cands : List α) (count : Int) (seed : Option Int) (st : Nat),
      ((∃ e, randomSample cands count seed st = .error e) ↔ count < 0)
      ∧ (0 ≤ count →
          ∃ sel st2, randomSample cands count seed st = .ok (sel, st2)
            ∧ sel.length = min count.toNat cands.length))
    ∧ (∀ (cands : List Cand) (targets : List (String × Int)),
        (sampleByClassTargets cands targets).total_selected
            = (sampleByClassTargets cands targets).selected_samples.length
        ∧ (sampleByClassTargets cands targets).target_achievement.map Prod.fst
            = targets.map Prod.fst) := by
  constructor
  · intro α cands count seed st
    have hlen : (0 : Int) ≤ (cands.length : Int) := Int.ofNat_nonneg _
    constructor
    · constructor
      · rintro ⟨e, he⟩
        by_contra hcnt
        push_neg at hcnt
        have hcond : ¬(min count (cands.length : Int) < 0
            ∨ min count (cands.length : Int) > (cands.length : Int)) := by omega
        unfold randomSample pySample at he
        rw [if_neg hcond] at he
        cases seed <;> simp_all
      · intro hneg
        refine ⟨"Sample larger than population or is negative", ?_⟩
        have hcond : min count (cands.length : Int) < 0
            ∨ min count (cands.length : Int) > (cands.length : Int) := by omega
        unfold randomSample pySample
        rw [if_pos hcond]
    · intro hpos
      have hcond : ¬(min count (cands.length : Int) < 0
          ∨ min count (cands.length : Int) > (cands.length : Int)) := by omega
      have hk : (min count (cands.length : Int)).toNat ≤ cands.length := by omega
      refine ⟨(sampleAux (match seed with | some s => seedState s | none => st) cands
          (min count (cands.length : Int)).toNat).1,
        (sampleAux (match seed with | some s => seedState s | none => st) cands
          (min count (cands.length : Int)).toNat).2, ?_, ?_⟩
      · unfold randomSample pySample
        rw [if_neg hcond]
      · rw [sampleAux_length _ _ _ hk]
        omega
  · intro cands targets
    cases cands with
    | nil =>
      refine ⟨rfl, ?_⟩
      show (targets.map (fun ct => (ct.1, (⟨ct.2, 0, "partial"⟩ : ClassAchievement)))).map Prod.fst
          = targets.map Prod.fst
      simp
    | cons a t =>
      refine ⟨rfl, ?_⟩
      show ((targets.map fun ct =>
          (ct.1, ClassAchievement.mk ct.2
            (((greedyLoop targets (a :: t)).1.map (fun s => lookupD s.class_counts ct.1)).sum)
            (if ((((greedyLoop targets (a :: t)).1.map
                (fun s => lookupD s.class_counts ct.1)).sum : Nat) : Int) ≥ ct.2
              then "achieved" else "partial"))).map Prod.fst)
          = targets.map Prod.fst
      simp

/-- Witness instantiating `sampling_failure_semantics` at a concrete
non-negative count. -/
theorem sampling_failure_semantics_witness :
    (0 : Int) ≤ 2
    ∧ ∃ sel st2, randomSample [10, 20, 30] 2 (some 1) 0 = .ok (sel, st2)
        ∧ sel.length = min (2 : Int).toNat [10, 20, 30].length :=
  ⟨by decide, ((sampling_failure_semantics.1 Nat [10, 20, 30] 2 (some 1) 0).2 (by decide))⟩

/-- C9: `random_sample` is deterministic under an explicit seed — with
`seed = S` supplied, the generator state is reset from `S` alone, so the
returned selection does not depend on the ambient generator state: two
invocations with identical candidates, count, and seed return identical
selections. -/
theorem randomSample_seed_deterministic {α : Type} (candidates : List α) (count : Int)
    (S : Int) (st1 st2 : Nat) :
    randomSample candidates count (some S) st1 = randomSample candidates count (some S) st2 :=
  rfl

/-! ## Theorems about the DNF tag filter -/

/-- The rows counted by a group's subquery are exactly the images
`(sid, t)` of the group tags the sample has. -/
lemma filter_pair_eq_image (assoc : Finset (Nat × Nat)) (sid : Nat) (g : List Nat) :
    assoc.filter (fun p => p.1 = sid ∧ p.2 ∈ g)
      = (g.toFinset.filter (fun t => (sid, t) ∈ assoc)).image (fun t => (sid, t)) := by
  ext p
  rcases p with ⟨a, b⟩
  simp only [Finset.mem_filter, Finset.mem_image, List.mem_toFinset, Prod.mk.injEq]
  constructor
  · rintro ⟨hmem, rfl, hbg⟩
    exact ⟨b, ⟨hbg, hmem⟩, rfl, rfl⟩
  · rintro ⟨t, ⟨htg, hta⟩, rfl, rfl⟩
    exact ⟨hta, rfl, htg⟩

/-- For a duplicate-free group, the subquery count reaches the group length
exactly when the sample has every tag of the group. -/
lemma rowCount_eq_length_iff (assoc : Finset (Nat × Nat)) (sid : Nat) (g : List Nat)
    (hnd : g.Nodup) :
    rowCount assoc sid g = g.length ↔ ∀ t ∈ g, (sid, t) ∈ assoc := by
  unfold rowCount
  rw [filter_pair_eq_image,
    Finset.card_image_of_injective _ (fun x y h => by simpa using h)]
  have hcard : g.toFinset.card = g.length := List.toFinset_card_of_nodup hnd
  constructor
  · intro h t ht
    have hsub : g.toFinset ⊆ g.toFinset.filter (fun t => (sid, t) ∈ assoc) := by
      apply Finset.subset_of_eq
      symm
      apply Finset.eq_of_subset_of_card_le (Finset.filter_subset _ _)
      rw [h, hcard]
    have := hsub (List.mem_toFinset.mpr ht)
    exact (Finset.mem_filter.mp this).2
  · intro h
    rw [Finset.filter_true_of_mem, hcard]
    intro t ht
    exact h t (List.mem_toFinset.mp ht)

/-- A group with an unparseable element parses to nothing. -/
lemma parseGroup_none (uuidOf : String → Option Nat) :
    ∀ (g : List String) (t : String), t ∈ g → uuidOf t = Option.none →
      parseGroup uuidOf g = Option.none := by
  intro g
  induction g with
  | nil => intro t ht; cases ht
  | cons x xs ih =>
    intro t ht hbad
    unfold parseGroup
    rcases List.mem_cons.mp ht with rfl | hmem
    · rw [hbad]
    · cases hx : uuidOf x with
      | none => rfl
      | some i => rw [ih t hmem hbad]; rfl

/-- Parsing a group preserves its length. -/
lemma parseGroup_length (uuidOf : String → Option Nat) :
    ∀ (g : List String) (r : List Nat), parseGroup uuidOf g = some r → r.length = g.length := by
  intro g
  induction g with
  | nil => intro r h; cases h; rfl
  | cons x xs ih =>
    intro r h
    unfold parseGroup at h
    cases hx : uuidOf x with
    | none => rw [hx] at h; cases h
    | some i =>
      rw [hx] at h
      cases hr : parseGroup uuidOf xs with
      | none => rw [hr] at h; cases h
      | some rest =>
        rw [hr] at h
        cases h
        simp [ih rest hr]

/-- A nonempty group containing an invalid UUID string makes the whole
loop raise `ValueError`, whatever else the filter contains. -/
lemma buildGroupConds_error (uuidOf : String → Option Nat) :
    ∀ strGroups : List (List String),
      (∃ g ∈ strGroups, g ≠ [] ∧ ∃ t ∈ g, uuidOf t = Option.none) →
      buildGroupConds uuidOf strGroups = .error () := by
  intro strGroups
  induction strGroups with
  | nil => rintro ⟨g, hg, _⟩; cases hg
  | cons g gs ih =>
    rintro ⟨g0, hg0, hne, t, ht, hbad⟩
    unfold buildGroupConds
    rcases List.mem_cons.mp hg0 with rfl | hmem
    · have hemp : g0.isEmpty = false := by
        cases g0 with
        | nil => exact absurd rfl hne
        | cons a b => rfl
      rw [hemp]
      simp only [Bool.false_eq_true, if_false]
      rw [parseGroup_none uuidOf g0 t ht hbad]
    · by_cases hemp : g.isEmpty
      · rw [hemp]
        simpa using ih ⟨g0, hmem, hne, t, ht, hbad⟩
      · rw [Bool.of_not_eq_true hemp]
        simp only [Bool.false_eq_true, if_false]
        cases hp : parseGroup uuidOf g with
        | none => rfl
        | some tids => rw [ih ⟨g0, hmem, hne, t, ht, hbad⟩]

/-- Applying `any id` to a mapped list of Booleans is `any` of the map's
function. -/
lemma any_map_id {β : Type} (f : β → Bool) (l : List β) : (l.map f).any id = l.any f := by
  induction l with
  | nil => rfl
  | cons x xs ih => simp [List.any_cons, ih]

/-- When every group parses, the built conditions are those of the
nonempty parsed groups, so the route's predicate coincides with
`dnfCodeMatches` on the parsed groups. -/
lemma tagFilterPred_ok_eq (uuidOf : String → Option Nat) (assoc : Finset (Nat × Nat))
    (sid : Nat) :
    ∀ (strGroups : List (List String)) (tidGroups : List (List Nat)),
      List.Forall₂ (fun sg tg => parseGroup uuidOf sg = some tg) strGroups tidGroups →
      tagFilterPred uuidOf assoc sid (some (.ok strGroups))
        = dnfCodeMatches assoc sid tidGroups := by
  have hbuild : ∀ (strGroups : List (List String)) (tidGroups : List (List Nat)),
      List.Forall₂ (fun sg tg => parseGroup uuidOf sg = some tg) strGroups tidGroups →
      buildGroupConds uuidOf strGroups = .ok (tidGroups.filter (fun g => !g.isEmpty)) := by
    intro strGroups
    induction strGroups with
    | nil =>
      intro tidGroups h
      cases h
      rfl
    | cons sg sgs ih =>
      intro tidGroups h
      cases h with
      | cons hp hrest =>
        rename_i tg tgs
        unfold buildGroupConds
        by_cases hemp : sg.isEmpty
        · have hsg : sg = [] := by simpa [List.isEmpty_iff] using hemp
          subst hsg
          have htg : tg = [] := by
            cases hp
            rfl
          subst htg
          rw [hemp]
          simpa using ih tgs hrest
        · have htglen : tg.length = sg.length := parseGroup_length uuidOf sg tg hp
          have hlen : sg.length ≠ 0 := by
            have hne : sg ≠ [] := by simpa [List.isEmpty_iff] using hemp
            cases sg with
            | nil => exact absurd rfl hne
            | cons a b => simp
          have htgne : tg.isEmpty = false := by
            cases htg : tg with
            | nil =>
              rw [htg] at htglen
              simp at htglen
              omega
            | cons a b => rfl
          rw [Bool.of_not_eq_true hemp]
          simp only [Bool.false_eq_true, if_false]
          rw [hp, ih tgs hrest]
          simp [List.filter_cons, htgne]
  intro strGroups tidGroups h
  show (if strGroups.isEmpty then true
      else
        match buildGroupConds uuidOf strGroups with
        | .error _ => true
        | .ok conds =>
          if conds.isEmpty then true
          else conds.any (fun g => rowCount assoc sid g == g.length)) = _
  unfold dnfCodeMatches
  by_cases hemp : strGroups.isEmpty
  · have hsg : strGroups = [] := by simpa [List.isEmpty_iff] using hemp
    subst hsg
    cases h
    simp
  · rw [Bool.of_not_eq_true hemp]
    simp only [Bool.false_eq_true, if_false]
    rw [hbuild strGroups tidGroups h]
    rcases hf : tidGroups.filter (fun g => !g.isEmpty) with _ | ⟨c, cs⟩
    · simp [hf]
    · simp [hf, ← any_map_id (fun g => rowCount assoc sid g == g.length) cs]

/-- C3 counterexample: the filter `[[A, A]]` (one group listing tag `A`
twice) and a sample holding tag `A`.  The claim's DNF semantics says the
sample matches (it has every tag of the group), but the built query
compares the row count `1` against the group length `2` and rejects it. -/
theorem dnf_claim_counterexample :
    dnfSpecMatches {(0, 1)} 0 [[1, 1]] = true
    ∧ parseGroup uuidOfDigit ["1", "1"] = some [1, 1]
    ∧ tagFilterPred uuidOfDigit {(0, 1)} 0 (some (.ok [["1", "1"]])) = false := by
  refine ⟨by decide, by decide, by decide⟩

/-- C3 (amended): for a filter consisting of at least one group, in which
every group is nonempty and lists no tag id twice, the query matches a
sample iff some group has all its tags associated to the sample; and the
route predicate computes exactly this matcher on the parsed groups. -/
theorem dnf_filter_semantics :
    (∀ (assoc : Finset (Nat × Nat)) (sid : Nat) (groups : List (List Nat)),
      groups ≠ [] → (∀ g ∈ groups, g ≠ [] ∧ g.Nodup) →
      dnfCodeMatches assoc sid groups = dnfSpecMatches assoc sid groups)
    ∧ (∀ (uuidOf : String → Option Nat) (assoc : Finset (Nat × Nat)) (sid : Nat)
        (strGroups : List (List String)) (tidGroups : List (List Nat)),
        List.Forall₂ (fun sg tg => parseGroup uuidOf sg = some tg) strGroups tidGroups →
        tagFilterPred uuidOf assoc sid (some (.ok strGroups))
          = dnfCodeMatches assoc sid tidGroups) := by
  constructor
  · intro assoc sid groups hne hgood
    unfold dnfCodeMatches dnfSpecMatches
    have hfilter : groups.filter (fun g => !g.isEmpty) = groups := by
      apply List.filter_eq_self.mpr
      intro g hg
      have : g ≠ [] := (hgood g hg).1
      cases g with
      | nil => exact absurd rfl this
      | cons a b => rfl
    rw [hfilter]
    have hconds : (groups.map (fun g => rowCount assoc sid g == g.length)).isEmpty = false := by
      cases hgr : groups with
      | nil => exact absurd hgr hne
      | cons g0 gs => rfl
    rw [hconds]
    simp only [Bool.false_eq_true, if_false]
    rw [any_map_id]
    rw [Bool.eq_iff_iff]
    simp only [List.any_eq_true]
    constructor
    · rintro ⟨g, hg, hcnt⟩
      refine ⟨g, hg, ?_⟩
      rw [List.all_eq_true]
      intro t ht
      have := (rowCount_eq_length_iff assoc sid g (hgood g hg).2).mp (by simpa using hcnt)
      simpa using this t ht
    · rintro ⟨g, hg, hall⟩
      refine ⟨g, hg, ?_⟩
      rw [List.all_eq_true] at hall
      have : ∀ t ∈ g, (sid, t) ∈ assoc := by
        intro t ht
        simpa using hall t ht
      simpa using (rowCount_eq_length_iff assoc sid g (hgood g hg).2).mpr this
  · intro uuidOf assoc sid strGroups tidGroups h
    exact tagFilterPred_ok_eq uuidOf assoc sid strGroups tidGroups h

/-- Witness instantiating both halves of `dnf_filter_semantics` at the
filter `[[1, 2], [3]]` over a sample holding tags `1` and `2`. -/
theorem dnf_filter_semantics_witness :
    (([[1, 2], [3]] : List (List Nat)) ≠ []
      ∧ (∀ g ∈ ([[1, 2], [3]] : List (List Nat)), g ≠ [] ∧ g.Nodup)
      ∧ List.Forall₂ (fun sg tg => parseGroup uuidOfDigit sg = some tg)
          [["1", "2"], ["3"]] [[1, 2], [3]])
    ∧ dnfCodeMatches {(0, 1), (0, 2)} 0 [[1, 2], [3]]
        = dnfSpecMatches {(0, 1), (0, 2)} 0 [[1, 2], [3]]
    ∧ tagFilterPred uuidOfDigit {(0, 1), (0, 2)} 0 (some (.ok [["1", "2"], ["3"]]))
        = dnfCodeMatches {(0, 1), (0, 2)} 0 [[1, 2], [3]] :=
  ⟨⟨by decide, by decide,
      List.Forall₂.cons (by decide) (List.Forall₂.cons (by decide) List.Forall₂.nil)⟩,
    dnf_filter_semantics.1 {(0, 1), (0, 2)} 0 [[1, 2], [3]] (by decide) (by decide),
    dnf_filter_semantics.2 uuidOfDigit {(0, 1), (0, 2)} 0 [["1", "2"], ["3"]]
      [[1, 2], [3]]
      (List.Forall₂.cons (by decide) (List.Forall₂.cons (by decide) List.Forall₂.nil))⟩

/-- C10: an unparseable `tag_filter` — `json.loads` failure, or any
element of any nonempty group not a valid UUID string — silently drops the
ENTIRE DNF filter: the query matches exactly the samples it would match
with no `tag_filter` supplied, well-formed groups included. -/
theorem invalid_tag_filter_dropped :
    (∀ (uuidOf : String → Option Nat) (assoc : Finset (Nat × Nat)) (cu : Nat)
        (status : Option SampleStatus) (inst : Option Nat) (bucket : Option String)
        (tagId : Option Nat) (s : QSample) (e : Unit),
      readSamplesMatches uuidOf assoc cu status inst bucket tagId (some (.error e)) s
        = readSamplesMatches uuidOf assoc cu status inst bucket tagId Option.none s)
    ∧ (∀ (uuidOf : String → Option Nat) (assoc : Finset (Nat × Nat)) (cu : Nat)
        (status : Option SampleStatus) (inst : Option Nat) (bucket : Option String)
        (tagId : Option Nat) (s : QSample) (strGroups : List (List String)),
        (∃ g ∈ strGroups, g ≠ [] ∧ ∃ t ∈ g, uuidOf t = Option.none) →
        readSamplesMatches uuidOf assoc cu status inst bucket tagId
            (some (.ok strGroups)) s
          = readSamplesMatches uuidOf assoc cu status inst bucket tagId Option.none s) := by
  constructor
  · intro uuidOf assoc cu status inst bucket tagId s e
    rfl
  · intro uuidOf assoc cu status inst bucket tagId s strGroups hbad
    have hpred : tagFilterPred uuidOf assoc s.id (some (.ok strGroups)) = true := by
      show (if strGroups.isEmpty then true
          else
            match buildGroupConds uuidOf strGroups with
            | .error _ => true
            | .ok conds =>
              if conds.isEmpty then true
              else conds.any (fun g => rowCount assoc s.id g == g.length)) = true
      have hne : strGroups ≠ [] := by
        rintro rfl
        rcases hbad with ⟨g, hg, _⟩
        cases hg
      have hemp : strGroups.isEmpty = false := by
        cases strGroups with
        | nil => exact absurd rfl hne
        | cons a b => rfl
      rw [hemp]
      simp only [Bool.false_eq_true, if_false]
      rw [buildGroupConds_error uuidOf strGroups hbad]
    unfold readSamplesMatches
    rw [hpred]
    rfl


/-- Witness instantiating `invalid_tag_filter_dropped` at the filter
`[["1"], ["x"]]`: the invalid string `"x"` drops the filter, so a sample
without tag `1` still matches. -/
theorem invalid_tag_filter_dropped_witness :
    (∃ g ∈ [["1"], ["x"]], g ≠ [] ∧ ∃ t ∈ g, uuidOfDigit t = Option.none)
    ∧ readSamplesMatches uuidOfDigit {(0, 1)} 7 Option.none Option.none Option.none
        Option.none (some (.ok [["1"], ["x"]])) ⟨5, 7, .active, 3, "b"⟩
      = readSamplesMatches uuidOfDigit {(0, 1)} 7 Option.none Option.none Option.none
          Option.none Option.none ⟨5, 7, .active, 3, "b"⟩ :=
  ⟨⟨["x"], by decide, by decide, "x", by decide, by decide⟩,
    invalid_tag_filter_dropped.2 uuidOfDigit {(0, 1)} 7 Option.none Option.none
      Option.none Option.none ⟨5, 7, .active, 3, "b"⟩ [["1"], ["x"]]
      ⟨["x"], by decide, by decide, "x", by decide, by decide⟩⟩

/-! ## Theorems about the VOC-XML parser -/

/-- C7: malformed XML is NOT the sole error condition of `parse_voc_xml`.
Malformed input is caught and yields `None`, and a regular document parses
completely — but the well-formed document `vocNonNumericTree` makes
`int(width_elem.text)` raise `ValueError`, which `except ET.ParseError`
does not catch, contradicting both the claim and the function's own
docstring (`ParsedAnnotation object or None if parsing fails`). -/
theorem parser_error_conditions :
    parseVocXml (.error ()) = .ok Option.none
    ∧ parseVocXml (.ok vocDemoTree)
        = .ok (some ⟨some "img1.jpg", 1920, 1080, 3,
            [(some "person", 2), (some "car", 1)],
            [⟨some "person", 10, 20, 30, 40⟩, ⟨some "person", 1, 2, 3, 4⟩,
              ⟨some "car", 5, 6, 7, 8⟩]⟩)
    ∧ parseVocXml (.ok vocNonNumericTree) = .error PyError.valueError := by
  refine ⟨rfl, rfl, rfl⟩

/-! ## Theorems about the reconciliation state machine -/

/-- C1 counterexample: the event sequence image-created(`images/cat.jpg`),
annotation-created(`labels/cat.xml`, parse fails — sample reaches `error`
with no Annotation row), annotation-created(`labels2/cat.xml`, parses)
ends with the sample transitioned back to `linked` and a new Annotation
record created, although the claim says a sample in `error` is never
re-linked automatically. -/
theorem error_relink_counterexample :
    (processEvents storeRelink instOne [evImage, evBadAnn] emptyDB).map
        (fun db => (db.samples.map (fun s => s.annotation_status), db.annotations.length))
      = .ok ([AnnotationStatus.error], 0)
    ∧ (processEvents storeRelink instOne [evImage, evBadAnn, evGoodAnn] emptyDB).map
        (fun db => (db.samples.map (fun s => s.annotation_status), db.annotations.length))
      = .ok ([AnnotationStatus.linked], 1) :=
  ⟨rfl, rfl⟩

/-- C1 (amended): only the `error` half of the claim fails.  A matched
sample in state `error` holding no Annotation row is treated as unlinked:
an annotation-created event for its stem whose payload parses successfully
sets its status to `linked` and creates a new Annotation record.  A
matched sample in state `conflict`, which still holds its Annotation row,
is NOT re-linked: the link branch's flush violates the unique
`Annotation.sample_id` constraint and raises before the status assignment,
so the event persists no new Annotation record and no `linked` status —
the request errors and the failed transaction is rolled back. -/
theorem annotation_relink_guard (store : ObjectStore) (inst : MinioInstance) (db : DB)
    (bucket key : String) (info : ObjInfo) (s : SampleR) (p : ParsedAnnotation)
    (hfind : findAnnotationTarget db inst bucket (extractFileStem key) = some s)
    (hparse : store.getParsed bucket key = .ok (some p)) :
    (s.annotation_status = AnnotationStatus.error →
      db.annotations.any (fun a => a.sample_id == s.id) = false →
      ∃ db2, handleAnnotationCreated store inst db bucket key info = .ok (1, db2)
        ∧ db2.annotations.length = db.annotations.length + 1
        ∧ ∀ x ∈ db2.samples, x.id = s.id → x.annotation_status = AnnotationStatus.linked)
    ∧ (s.annotation_status = AnnotationStatus.conflict →
      db.annotations.any (fun a => a.sample_id == s.id) = true →
      handleAnnotationCreated store inst db bucket key info = .error ()) := by
  constructor
  · intro hst hrow
    have hne : ¬(s.annotation_status = AnnotationStatus.linked) := by
      rw [hst]
      intro hc
      cases hc
    have hred : handleAnnotationCreated store inst db bucket key info
        = (match linkAnnotationTo db s key (some (stripQuotes info.etag)) p with
          | .ok db2 => .ok (1, db2)
          | .error _ => .error ()) := by
      unfold handleAnnotationCreated
      simp only [hfind]
      rw [if_neg hne, hparse]
    rw [hred]
    unfold linkAnnotationTo
    rw [hrow]
    simp only [Bool.false_eq_true, if_false]
    refine ⟨_, rfl, ?_, ?_⟩
    · simp
    · intro x hx hid
      simp only [List.mem_map] at hx
      rcases hx with ⟨y, hy, rfl⟩
      by_cases h : y.id = s.id
      · simp [h]
      · rw [if_neg h] at hid ⊢
        exact absurd hid h
  · intro hst hrow
    have hne : ¬(s.annotation_status = AnnotationStatus.linked) := by
      rw [hst]
      intro hc
      cases hc
    have hred : handleAnnotationCreated store inst db bucket key info
        = (match linkAnnotationTo db s key (some (stripQuotes info.etag)) p with
          | .ok db2 => .ok (1, db2)
          | .error _ => .error ()) := by
      unfold handleAnnotationCreated
      simp only [hfind]
      rw [if_neg hne, hparse]
    rw [hred]
    unfold linkAnnotationTo
    rw [hrow]
    rfl

/-- Witness instantiating both arms of `annotation_relink_guard`: the
`error` arm at the state reached by `evImage` then `evBadAnn`, and the
`conflict` arm at the state reached by `evImage`, `evGoodAnn`, `evAnn3`,
where the link attempt hits the unique-constraint failure. -/
theorem annotation_relink_guard_witness :
    (findAnnotationTarget dbErrState instOne "b" (extractFileStem "labels2/cat.xml")
        = some sampleErrState
      ∧ storeRelink.getParsed "b" "labels2/cat.xml" = .ok (some demoParsed)
      ∧ sampleErrState.annotation_status = AnnotationStatus.error
      ∧ dbErrState.annotations.any (fun a => a.sample_id == sampleErrState.id) = false
      ∧ ∃ db2, handleAnnotationCreated storeRelink instOne dbErrState "b" "labels2/cat.xml"
            ⟨"\"a2\"", 3, Option.none⟩ = .ok (1, db2)
          ∧ db2.annotations.length = dbErrState.annotations.length + 1
          ∧ ∀ x ∈ db2.samples, x.id = sampleErrState.id →
              x.annotation_status = AnnotationStatus.linked)
    ∧ (findAnnotationTarget dbConfState instOne "b" (extractFileStem "labels4/cat.xml")
        = some sampleConfState
      ∧ storeRelink.getParsed "b" "labels4/cat.xml" = .ok (some demoParsed)
      ∧ sampleConfState.annotation_status = AnnotationStatus.conflict
      ∧ dbConfState.annotations.any (fun a => a.sample_id == sampleConfState.id) = true
      ∧ handleAnnotationCreated storeRelink instOne dbConfState "b" "labels4/cat.xml"
          ⟨"\"a4\"", 3, Option.none⟩ = .error ()) :=
  ⟨⟨rfl, rfl, rfl, rfl,
      (annotation_relink_guard storeRelink instOne dbErrState "b" "labels2/cat.xml"
        ⟨"\"a2\"", 3, Option.none⟩ sampleErrState demoParsed rfl rfl).1 rfl rfl⟩,
    ⟨rfl, rfl, rfl, rfl,
      (annotation_relink_guard storeRelink instOne dbConfState "b" "labels4/cat.xml"
        ⟨"\"a4\"", 3, Option.none⟩ sampleConfState demoParsed rfl rfl).2 rfl rfl⟩⟩

/-- C4 counterexample: instance `2` belongs to the same owner `7` as
instance `1`, and the owner already has an active sample with hash `h`
(on instance `1`), yet an image-created event on instance `2` with the
same ETag is NOT skipped — a second active sample with identical
`(owner, file_hash)` is created. -/
theorem hash_dedup_owner_counterexample :
    instOne.owner_id = instTwo.owner_id
    ∧ dbOneSample.samples.map (fun s => (s.owner_id, s.file_hash, s.status))
      = [(7, some "h", SampleStatus.active)]
    ∧ (handleImageCreated storeEmpty instTwo dbOneSample "b" "c.jpg" infoHashH).1 = 1
    ∧ (handleImageCreated storeEmpty instTwo dbOneSample "b" "c.jpg" infoHashH).2.samples.map
        (fun s => (s.owner_id, s.file_hash, s.status))
      = [(7, some "h", SampleStatus.active), (7, some "h", SampleStatus.active)] :=
  ⟨rfl, rfl, rfl, rfl⟩

/-- C4 (amended): the duplicate-content check is scoped per STORAGE
INSTANCE: when the event's ETag yields a non-empty hash and an active
sample with the same `(minio_instance_id, file_hash)` exists, the event is
skipped with no change to the database. -/
theorem hash_dedup_per_instance (store : ObjectStore) (inst : MinioInstance) (db : DB)
    (bucket key : String) (info : ObjInfo) (hsh : String) (s : SampleR)
    (hhash : stripQuotes info.etag = hsh) (hne : hsh ≠ "")
    (hfound : db.samples.find? (fun x => x.minio_instance_id == inst.id
        && x.file_hash == some hsh && x.status == SampleStatus.active) = some s) :
    handleImageCreated store inst db bucket key info = (0, db) := by
  unfold handleImageCreated
  simp only [hhash]
  rw [if_neg hne]
  simp only [hfound]

/-- Witness instantiating `hash_dedup_per_instance` on instance `1`, where
the hash-`h` sample lives. -/
theorem hash_dedup_per_instance_witness :
    (stripQuotes infoHashH.etag = "h" ∧ "h" ≠ ""
      ∧ dbOneSample.samples.find? (fun x => x.minio_instance_id == instOne.id
          && x.file_hash == some "h" && x.status == SampleStatus.active) = some sampleHashH)
    ∧ handleImageCreated storeEmpty instOne dbOneSample "b" "c.jpg" infoHashH
        = (0, dbOneSample) :=
  ⟨⟨rfl, by decide, rfl⟩,
    hash_dedup_per_instance storeEmpty instOne dbOneSample "b" "c.jpg" infoHashH "h"
      sampleHashH rfl (by decide) rfl⟩

/-! ## Theorems about the rule engine's dry-run semantics -/

/-- Applying one tag never changes `matched`, `no_annotation`, or any
table other than `SampleTag`. -/
lemma applyTagsStep_fields (sid : Nat) (a : RuleStats × TagDB) (tid : Nat) :
    (applyTagsStep sid a tid).1.matched = a.1.matched
    ∧ RuleStats.no_annotation (applyTagsStep sid a tid).1 = RuleStats.no_annotation a.1
    ∧ (applyTagsStep sid a tid).2.annotations = a.2.annotations
    ∧ (applyTagsStep sid a tid).2.tags = a.2.tags
    ∧ (applyTagsStep sid a tid).2.samples = a.2.samples := by
  unfold applyTagsStep applyTag
  by_cases h : (a.2.sampleTags.find? (fun p => p.1 == sid && p.2 == tid)).isSome
  · simp [h]
  · simp [h]

/-- The inner tag loop of the fixed executor preserves `matched` and
`no_annotation`. -/
lemma fixed_inner_fold_invar (sid : Nat) :
    ∀ (tids : List Nat) (a : RuleStats × TagDB),
      ((tids.foldl (applyTagsStep sid) a).1.matched = a.1.matched)
      ∧ (RuleStats.no_annotation (tids.foldl (applyTagsStep sid) a).1 = RuleStats.no_annotation a.1) := by
  intro tids
  induction tids with
  | nil => intro a; exact ⟨rfl, rfl⟩
  | cons t ts ih =>
    intro a
    simp only [List.foldl_cons]
    exact ⟨by rw [(ih _).1, (applyTagsStep_fields sid a t).1],
      by rw [(ih _).2, (applyTagsStep_fields sid a t).2.1]⟩

/-- The dry fixed step only counts the match. -/
lemma fixedStep_dry (research : String → String → Bool) (pattern : String) (tids : List Nat)
    (acc : RuleStats × TagDB) (s : TagSample) :
    fixedStep research pattern tids true acc s
      = (⟨acc.1.matched + (if matchesRule research pattern s then 1 else 0),
          acc.1.tagged, acc.1.skipped, RuleStats.no_annotation acc.1⟩, acc.2) := by
  unfold fixedStep
  by_cases h : matchesRule research pattern s
  · simp [h]
  · simp [h]

/-- The wet fixed step increments `matched` exactly on a match. -/
lemma fixedStep_wet_matched (research : String → String → Bool) (pattern : String)
    (tids : List Nat) (acc : RuleStats × TagDB) (s : TagSample) :
    (fixedStep research pattern tids false acc s).1.matched
      = acc.1.matched + (if matchesRule research pattern s then 1 else 0) := by
  unfold fixedStep
  by_cases h : matchesRule research pattern s
  · simp [h, (fixed_inner_fold_invar s.id tids _).1]
  · simp [h]

/-- A dry fixed execution folds to matched = match count, everything else
untouched. -/
lemma fixed_fold_dry (research : String → String → Bool) (pattern : String) (tids : List Nat) :
    ∀ (l : List TagSample) (acc : RuleStats × TagDB),
      l.foldl (fixedStep research pattern tids true) acc
        = (⟨acc.1.matched + l.countP (matchesRule research pattern),
            acc.1.tagged, acc.1.skipped, RuleStats.no_annotation acc.1⟩, acc.2) := by
  intro l
  induction l with
  | nil => intro acc; simp
  | cons x xs ih =>
    intro acc
    simp only [List.foldl_cons]
    rw [fixedStep_dry, ih]
    have harith : acc.1.matched + (if matchesRule research pattern x then 1 else 0)
        + xs.countP (matchesRule research pattern)
        = acc.1.matched + (x :: xs).countP (matchesRule research pattern) := by
      rw [List.countP_cons]
      omega
    rw [harith]

/-- A wet fixed execution counts the same matches. -/
lemma fixed_fold_wet_matched (research : String → String → Bool) (pattern : String)
    (tids : List Nat) :
    ∀ (l : List TagSample) (acc : RuleStats × TagDB),
      (l.foldl (fixedStep research pattern tids false) acc).1.matched
        = acc.1.matched + l.countP (matchesRule research pattern) := by
  intro l
  induction l with
  | nil => intro acc; simp
  | cons x xs ih =>
    intro acc
    simp only [List.foldl_cons]
    rw [ih (fixedStep research pattern tids false acc x),
      fixedStep_wet_matched research pattern tids acc x, List.countP_cons]
    omega

/-- A dry per-class step is the identity. -/
lemma mappingClassStep_dry (uuidOf : String → Option Nat) (mapping : List (String × String))
    (sid : Nat) (a : RuleStats × TagDB) (cls : Option String) :
    mappingClassStep uuidOf mapping true sid a cls = a := by
  unfold mappingClassStep
  cases h : classLookup mapping cls with
  | none => rfl
  | some tidStr => simp

/-- The wet per-class step preserves `matched`, `no_annotation`, and the
annotation table. -/
lemma mappingClassStep_invar (uuidOf : String → Option Nat) (mapping : List (String × String))
    (sid : Nat) (a : RuleStats × TagDB) (cls : Option String) :
    (mappingClassStep uuidOf mapping false sid a cls).1.matched = a.1.matched
    ∧ RuleStats.no_annotation (mappingClassStep uuidOf mapping false sid a cls).1 = RuleStats.no_annotation a.1
    ∧ (mappingClassStep uuidOf mapping false sid a cls).2.annotations = a.2.annotations := by
  unfold mappingClassStep
  cases h : classLookup mapping cls with
  | none => exact ⟨rfl, rfl, rfl⟩
  | some tidStr =>
    by_cases hc : tidStr = ""
    · simp [hc]
    · simp only [ne_eq, hc, not_false_eq_true, Bool.not_false, and_self, if_true]
      cases hu : uuidOf tidStr with
      | none => exact ⟨rfl, rfl, rfl⟩
      | some tid =>
        by_cases ht : a.2.tags.contains tid
        · simp only [ht, if_true]
          exact ⟨(applyTagsStep_fields sid a tid).1,
            (applyTagsStep_fields sid a tid).2.1,
            (applyTagsStep_fields sid a tid).2.2.1⟩
        · simp only [ht, Bool.false_eq_true, if_false]
          exact ⟨rfl, rfl, rfl⟩

/-- A dry per-class loop is the identity. -/
lemma class_fold_dry (uuidOf : String → Option Nat) (mapping : List (String × String))
    (sid : Nat) :
    ∀ (cl : List (Option String)) (a : RuleStats × TagDB),
      cl.foldl (mappingClassStep uuidOf mapping true sid) a = a := by
  intro cl
  induction cl with
  | nil => intro a; rfl
  | cons c cs ih =>
    intro a
    simp only [List.foldl_cons, mappingClassStep_dry]
    exact ih a

/-- The wet per-class loop preserves `matched`, `no_annotation`, and the
annotation table. -/
lemma class_fold_invar (uuidOf : String → Option Nat) (mapping : List (String × String))
    (sid : Nat) :
    ∀ (cl : List (Option String)) (a : RuleStats × TagDB),
      ((cl.foldl (mappingClassStep uuidOf mapping false sid) a).1.matched = a.1.matched)
      ∧ (RuleStats.no_annotation (cl.foldl (mappingClassStep uuidOf mapping false sid) a).1
          = RuleStats.no_annotation a.1)
      ∧ ((cl.foldl (mappingClassStep uuidOf mapping false sid) a).2.annotations
          = a.2.annotations) := by
  intro cl
  induction cl with
  | nil => intro a; exact ⟨rfl, rfl, rfl⟩
  | cons c cs ih =>
    intro a
    simp only [List.foldl_cons]
    refine ⟨?_, ?_, ?_⟩
    · rw [(ih _).1, (mappingClassStep_invar uuidOf mapping sid a c).1]
    · rw [(ih _).2.1, (mappingClassStep_invar uuidOf mapping sid a c).2.1]
    · rw [(ih _).2.2, (mappingClassStep_invar uuidOf mapping sid a c).2.2]

/-- One dry and one wet mapping step, started from states agreeing on
`matched`, `no_annotation`, and the annotation table, stay in step: equal
`matched` and `no_annotation`, dry `tagged`/`skipped`/state untouched,
and the wet annotation table unchanged. -/
lemma mappingStep_rel (research : String → String → Bool) (uuidOf : String → Option Nat)
    (pattern : String) (mapping : List (String × String)) (accD accW : RuleStats × TagDB)
    (s : TagSample)
    (hm : accD.1.matched = accW.1.matched)
    (hn : RuleStats.no_annotation accD.1 = RuleStats.no_annotation accW.1)
    (ha : accW.2.annotations = accD.2.annotations) :
    (mappingStep research uuidOf pattern mapping true accD s).1.matched
      = (mappingStep research uuidOf pattern mapping false accW s).1.matched
    ∧ RuleStats.no_annotation (mappingStep research uuidOf pattern mapping true accD s).1
      = RuleStats.no_annotation (mappingStep research uuidOf pattern mapping false accW s).1
    ∧ (mappingStep research uuidOf pattern mapping true accD s).1.tagged = accD.1.tagged
    ∧ (mappingStep research uuidOf pattern mapping true accD s).1.skipped = accD.1.skipped
    ∧ (mappingStep research uuidOf pattern mapping true accD s).2 = accD.2
    ∧ (mappingStep research uuidOf pattern mapping false accW s).2.annotations
      = accD.2.annotations := by
  unfold mappingStep
  by_cases h : matchesRule research pattern s
  · simp only [h, Bool.not_true, Bool.false_eq_true, if_false]
    rw [ha]
    cases hf : accD.2.annotations.find? (fun a => a.sample_id == s.id) with
    | none =>
      exact ⟨by simp [hm], by simp [hn], by trivial, by trivial, by trivial, ha⟩
    | some ann =>
      by_cases he : ann.class_counts.isEmpty
      · simp only [he, if_true]
        exact ⟨by simp [hm], by simp [hn], by trivial, by trivial, by trivial, ha⟩
      · simp only [he, Bool.false_eq_true, if_false]
        rw [class_fold_dry]
        refine ⟨?_, ?_, rfl, rfl, rfl, ?_⟩
        · rw [(class_fold_invar uuidOf mapping s.id _ _).1]
          simp [hm]
        · rw [(class_fold_invar uuidOf mapping s.id _ _).2.1]
          simp [hn]
        · rw [(class_fold_invar uuidOf mapping s.id _ _).2.2]
          exact ha
  · simp only [h, Bool.not_false, if_true]
    exact ⟨hm, hn, by trivial, by trivial, by trivial, ha⟩

/-- The dry and wet mapping folds stay in step over any sample list. -/
lemma mapping_fold_rel (research : String → String → Bool) (uuidOf : String → Option Nat)
    (pattern : String) (mapping : List (String × String)) :
    ∀ (l : List TagSample) (accD accW : RuleStats × TagDB),
      accD.1.matched = accW.1.matched → RuleStats.no_annotation accD.1 = RuleStats.no_annotation accW.1 →
      accW.2.annotations = accD.2.annotations →
      ((l.foldl (mappingStep research uuidOf pattern mapping true) accD).1.matched
        = (l.foldl (mappingStep research uuidOf pattern mapping false) accW).1.matched)
      ∧ (RuleStats.no_annotation (l.foldl (mappingStep research uuidOf pattern mapping true) accD).1
        = RuleStats.no_annotation (l.foldl (mappingStep research uuidOf pattern mapping false) accW).1)
      ∧ ((l.foldl (mappingStep research uuidOf pattern mapping true) accD).1.tagged
          = accD.1.tagged)
      ∧ ((l.foldl (mappingStep research uuidOf pattern mapping true) accD).1.skipped
          = accD.1.skipped)
      ∧ ((l.foldl (mappingStep research uuidOf pattern mapping true) accD).2 = accD.2) := by
  intro l
  induction l with
  | nil =>
    intro accD accW hm hn ha
    exact ⟨hm, hn, rfl, rfl, rfl⟩
  | cons x xs ih =>
    intro accD accW hm hn ha
    simp only [List.foldl_cons]
    have step := mappingStep_rel research uuidOf pattern mapping accD accW x hm hn ha
    have hrec := ih
      (mappingStep research uuidOf pattern mapping true accD x)
      (mappingStep research uuidOf pattern mapping false accW x)
      step.1 step.2.1 (by rw [step.2.2.2.2.2, step.2.2.2.2.1])
    refine ⟨hrec.1, hrec.2.1, ?_, ?_, ?_⟩
    · rw [hrec.2.2.1, step.2.2.1]
    · rw [hrec.2.2.2.1, step.2.2.2.1]
    · rw [hrec.2.2.2.2, step.2.2.2.2.1]

/-- C5 counterexample: a fixed rule with one tag, one matching untagged
sample.  A wet execution reports `tagged = 1`; a dry run over the same
state reports `tagged = 0` — not the same statistics the claim promises
(the dry run does persist nothing). -/
theorem dry_run_stats_counterexample :
    (execFixedRule (fun _ _ => true) dbOneUntagged ruleFixedOne true).1
        = ⟨1, 0, 0, 0⟩
    ∧ (execFixedRule (fun _ _ => true) dbOneUntagged ruleFixedOne false).1
        = ⟨1, 1, 0, 0⟩
    ∧ (⟨1, 0, 0, 0⟩ : RuleStats) ≠ ⟨1, 1, 0, 0⟩
    ∧ (execFixedRule (fun _ _ => true) dbOneUntagged ruleFixedOne true).2 = dbOneUntagged :=
  ⟨rfl, rfl, by decide, rfl⟩

/-- C5 (amended): for both rule variants, `dry_run=true` persists nothing
and reports the same `matched` (and, for mapping rules, `no_annotation`)
as the wet execution over the same state — but its `tagged` and `skipped`
are always `0`; the wet run's `tagged`/`skipped` counts are not
computed. -/
theorem dry_run_semantics :
    (∀ (research : String → String → Bool) (db : TagDB) (rule : TagRule),
      (execFixedRule research db rule true).2 = db
      ∧ (execFixedRule research db rule true).1
          = ⟨(execFixedRule research db rule false).1.matched, 0, 0, 0⟩)
    ∧ (∀ (research : String → String → Bool) (uuidOf : String → Option Nat)
        (db : TagDB) (rule : TagRule),
      (execMappingRule research uuidOf db rule true).2 = db
      ∧ (execMappingRule research uuidOf db rule true).1
          = ⟨(execMappingRule research uuidOf db rule false).1.matched, 0, 0,
              RuleStats.no_annotation (execMappingRule research uuidOf db rule false).1⟩) := by
  constructor
  · intro research db rule
    unfold execFixedRule
    rw [fixed_fold_dry, fixed_fold_wet_matched]
    exact ⟨rfl, rfl⟩
  · intro research uuidOf db rule
    unfold execMappingRule
    by_cases hmap : rule.class_tag_mapping.isEmpty
    · simp [hmap]
    · simp only [hmap, Bool.false_eq_true, if_false]
      have hrel := mapping_fold_rel research uuidOf rule.pattern rule.class_tag_mapping
        (db.samples.filter (fun s =>
          s.owner_id == rule.owner_id && s.annotation_status == AnnotationStatus.linked))
        ((⟨0, 0, 0, 0⟩ : RuleStats), db) ((⟨0, 0, 0, 0⟩ : RuleStats), db) rfl rfl rfl
      refine ⟨hrel.2.2.2.2, ?_⟩
      have h1 := hrel.1
      have h2 := hrel.2.1
      have h3 := hrel.2.2.1
      have h4 := hrel.2.2.2.1
      cases hdry : (List.foldl (mappingStep research uuidOf rule.pattern
          rule.class_tag_mapping true)
          ((⟨0, 0, 0, 0⟩ : RuleStats), db)
          (db.samples.filter (fun s =>
            s.owner_id == rule.owner_id
              && s.annotation_status == AnnotationStatus.linked))) with
      | mk stats st =>
        rw [hdry] at h1 h2 h3 h4
        cases stats with
        | mk m t sk na =>
          simp only at h1 h2 h3 h4
          rw [← h1, ← h2, h3, h4]

end Manifest
